import Mathlib

/-!
Command dispatcher of the GBA "64GB Cable" accessory firmware

Shallow embedding of `source/main.iwram.c`: the CRC-8 engine (`crc8_lut`,
`crc8`), the identity record `id`, the 128-byte frame `buffer` and one
iteration of the `while (true)` loop of `main` (`dispatch`).

Conventions of the embedding.

* A `uint8_t` is a `Nat` below 256; memory (the frame buffer, the object
  representation of `id`) is a `List Nat`.  `WF` states that a list is a
  128-byte buffer.
* Every memory access is partial: reading or writing outside the object
  yields `none`, and so does a `crc8_lut` lookup outside the table.  The
  operations therefore live in `Option`.
* `int length` is an `Int`.
* One loop iteration is `dispatch buffer length`, where `buffer` is the frame
  buffer as `SIGetCommand` left it and `length` is the value it returned.  The
  result is the list of replies handed to `SISetResponse` during the iteration
  together with the buffer at the end of the iteration.
-/

namespace GbaLink

/-! ## Constants -/

/-- Opcode `CMD_ID` of the anonymous `enum`. -/
def CMD_ID : Nat := 0x00
/-- Opcode `CMD_GBREAD` of the anonymous `enum`. -/
def CMD_GBREAD : Nat := 0x13
/-- Opcode `CMD_GBWRITE` of the anonymous `enum`. -/
def CMD_GBWRITE : Nat := 0x14
/-- Opcode `CMD_RESET` of the anonymous `enum`. -/
def CMD_RESET : Nat := 0xFF

/-- Offset `#define LINK_SEND 0x3`. -/
def LINK_SEND : Nat := 0x3
/-- Offset `#define LINK_REP_C0 0x30`. -/
def LINK_REP_C0 : Nat := 0x30
/-- Offset `#define LINK_REP_F0 0x30+0x21`; the macro is only ever used as the
left operand of `+` or alone, so the missing parentheses do not matter. -/
def LINK_REP_F0 : Nat := 0x30+0x21

/-- Number of bytes of `static uint8_t buffer[128]`, that is `sizeof(buffer)`. -/
def sizeof_buffer : Nat := 128

/-- The table `uint8_t crc8_lut[256]`. -/
def crc8_lut : List Nat := [
  0x00, 0x85, 0x8F, 0x0A, 0x9B, 0x1E, 0x14, 0x91, 0xB3, 0x36, 0x3C, 0xB9, 0x28, 0xAD, 0xA7, 0x22,
  0xE3, 0x66, 0x6C, 0xE9, 0x78, 0xFD, 0xF7, 0x72, 0x50, 0xD5, 0xDF, 0x5A, 0xCB, 0x4E, 0x44, 0xC1,
  0x43, 0xC6, 0xCC, 0x49, 0xD8, 0x5D, 0x57, 0xD2, 0xF0, 0x75, 0x7F, 0xFA, 0x6B, 0xEE, 0xE4, 0x61,
  0xA0, 0x25, 0x2F, 0xAA, 0x3B, 0xBE, 0xB4, 0x31, 0x13, 0x96, 0x9C, 0x19, 0x88, 0x0D, 0x07, 0x82,
  0x86, 0x03, 0x09, 0x8C, 0x1D, 0x98, 0x92, 0x17, 0x35, 0xB0, 0xBA, 0x3F, 0xAE, 0x2B, 0x21, 0xA4,
  0x65, 0xE0, 0xEA, 0x6F, 0xFE, 0x7B, 0x71, 0xF4, 0xD6, 0x53, 0x59, 0xDC, 0x4D, 0xC8, 0xC2, 0x47,
  0xC5, 0x40, 0x4A, 0xCF, 0x5E, 0xDB, 0xD1, 0x54, 0x76, 0xF3, 0xF9, 0x7C, 0xED, 0x68, 0x62, 0xE7,
  0x26, 0xA3, 0xA9, 0x2C, 0xBD, 0x38, 0x32, 0xB7, 0x95, 0x10, 0x1A, 0x9F, 0x0E, 0x8B, 0x81, 0x04,
  0x89, 0x0C, 0x06, 0x83, 0x12, 0x97, 0x9D, 0x18, 0x3A, 0xBF, 0xB5, 0x30, 0xA1, 0x24, 0x2E, 0xAB,
  0x6A, 0xEF, 0xE5, 0x60, 0xF1, 0x74, 0x7E, 0xFB, 0xD9, 0x5C, 0x56, 0xD3, 0x42, 0xC7, 0xCD, 0x48,
  0xCA, 0x4F, 0x45, 0xC0, 0x51, 0xD4, 0xDE, 0x5B, 0x79, 0xFC, 0xF6, 0x73, 0xE2, 0x67, 0x6D, 0xE8,
  0x29, 0xAC, 0xA6, 0x23, 0xB2, 0x37, 0x3D, 0xB8, 0x9A, 0x1F, 0x15, 0x90, 0x01, 0x84, 0x8E, 0x0B,
  0x0F, 0x8A, 0x80, 0x05, 0x94, 0x11, 0x1B, 0x9E, 0xBC, 0x39, 0x33, 0xB6, 0x27, 0xA2, 0xA8, 0x2D,
  0xEC, 0x69, 0x63, 0xE6, 0x77, 0xF2, 0xF8, 0x7D, 0x5F, 0xDA, 0xD0, 0x55, 0xC4, 0x41, 0x4B, 0xCE,
  0x4C, 0xC9, 0xC3, 0x46, 0xD7, 0x52, 0x58, 0xDD, 0xFF, 0x7A, 0x70, 0xF5, 0x64, 0xE1, 0xEB, 0x6E,
  0xAF, 0x2A, 0x20, 0xA5, 0x34, 0xB1, 0xBB, 0x3E, 0x1C, 0x99, 0x93, 0x16, 0x87, 0x02, 0x08, 0x8D]

/-! ## Memory -/

/-- Well-formed frame buffer: `sizeof_buffer` cells, each holding a `uint8_t`. -/
def WF (buffer : List Nat) : Prop :=
  buffer.length = sizeof_buffer ∧ ∀ x ∈ buffer, x < 256

instance (buffer : List Nat) : Decidable (WF buffer) := by
  unfold WF; infer_instance

/-- Read `mem[i]`; `none` outside the object. -/
def load (mem : List Nat) (i : Nat) : Option Nat := mem[i]?

/-- Perform `mem[i] = v`; `none` outside the object. -/
def store (mem : List Nat) (i : Nat) (v : Nat) : Option (List Nat) :=
  if i < mem.length then some (mem.set i v) else none

/-! ## CRC engine -/

/-- The `for` loop of `crc8` with `n` iterations left, `ptr` the offset the
pointer has reached in `mem` and `crc` the accumulator:
`crc ^= *ptr++; crc = crc8_lut[crc];`. -/
def crc8Loop (mem : List Nat) : Nat → Nat → Nat → Option Nat
  | 0, _, crc => some crc
  | n + 1, ptr, crc =>
    match load mem ptr with
    | none => none
    | some x =>
      match load crc8_lut (crc ^^^ x) with
      | none => none
      | some crc1 => crc8Loop mem n (ptr + 1) crc1

/-- The function `crc8(uint8_t* ptr)`, the pointer being offset `ptr` of `mem`. -/
def crc8 (mem : List Nat) (ptr : Nat) : Option Nat :=
  crc8Loop mem 32 ptr 0

/-! ## Identity record and transport -/

/-- The type of the anonymous packed little-endian `struct` of `id`. -/
structure IdRecord where
  /-- Field `uint16_t type`. -/
  type : Nat
  /-- Field `uint8_t status`. -/
  status : Nat
deriving DecidableEq, Repr

/-- The object `id = {0x0300, 0x00}`. -/
def id : IdRecord := { type := 0x0300, status := 0x00 }

/-- Object representation of an `IdRecord`: the struct is declared
`packed, scalar_storage_order("little-endian")`, so it is the low byte of
`type`, the high byte of `type`, then `status`. -/
def IdRecord.bytes (r : IdRecord) : List Nat :=
  [r.type % 256, r.type / 256 % 256, r.status % 256]

/-- The value of `sizeof(id)`: three bytes, the struct being packed. -/
def sizeof_id : Nat := 3

/-- A reply handed to the transport: its length in bits and the bytes that
carry them. -/
structure Reply where
  /-- Number of bits to transmit. -/
  bits : Nat
  /-- The bytes holding those bits, first byte first. -/
  data : List Nat
deriving DecidableEq, Repr

/-- Modelled from the spec: `SISetResponse(buf, bits)` is only declared in
`main.iwram.c`; the spec describes it as `transmit(buffer, bits)`, which hands
the transport a reply of `bits` bits starting at `buf`, "fully staged before
being handed to the Transport".  The model records the bit count and the
`⌈bits / 8⌉` bytes found at offset `off` of `mem` at the time of the call;
`none` when they do not all lie inside `mem`. -/
def SISetResponse (mem : List Nat) (off : Nat) (bits : Nat) : Option Reply :=
  if off + (bits + 7) / 8 ≤ mem.length then
    some { bits := bits, data := (mem.drop off).take ((bits + 7) / 8) }
  else none

/-! ## Dispatcher -/

/-- The loop `for (int i = 0; i < sizeof(buffer); i++) buffer[i] = 0;` with `n`
iterations left and counter `i`. -/
def zeroLoop : Nat → Nat → List Nat → Option (List Nat)
  | 0, _, buffer => some buffer
  | n + 1, i, buffer =>
    match store buffer i 0 with
    | none => none
    | some buffer1 => zeroLoop n (i + 1) buffer1

/-- Body of `case CMD_GBREAD:` once `length == 25` holds. -/
def gbread (buffer : List Nat) : Option (List Reply × List Nat) :=
  match load buffer 1 with
  | none => none
  | some sub =>
    if sub = 0xC0 then
      (SISetResponse buffer LINK_REP_C0 264).map fun r => ([r], buffer)
    else if sub = 0xF0 then
      (SISetResponse buffer LINK_REP_F0 264).map fun r => ([r], buffer)
    else some ([], buffer)

/-- The "Prepare Data Response" part of `case CMD_GBWRITE:`, run on the buffer
in which the checksum has already been stored. -/
def gbwriteStage (buffer : List Nat) : Option (List Nat) :=
  match load buffer 1 with
  | none => none
  | some sub =>
    if sub = 0x80 then
      zeroLoop sizeof_buffer 0 buffer
    else if sub = 0xC0 then
      match store buffer LINK_REP_C0 0x02 with
      | none => none
      | some buffer1 =>
        match crc8 buffer1 LINK_REP_C0 with
        | none => none
        | some c => store buffer1 (LINK_REP_C0 + 0x20) c
    else if sub = 0xE0 then
      match store buffer (LINK_REP_F0 + 8) 0x81 with
      | none => none
      | some buffer1 =>
        match crc8 buffer1 LINK_REP_F0 with
        | none => none
        | some c => store buffer1 (LINK_REP_F0 + 0x20) c
    else some buffer

/-- Body of `case CMD_GBWRITE:` once `length == 281` holds. -/
def gbwrite (buffer : List Nat) : Option (List Reply × List Nat) :=
  match crc8 buffer LINK_SEND with
  | none => none
  | some c =>
    match store buffer (LINK_SEND + 0x20) c with
    | none => none
    | some buffer1 =>
      match SISetResponse buffer1 (LINK_SEND + 0x20) 8 with
      | none => none
      | some r => (gbwriteStage buffer1).map fun buffer2 => ([r], buffer2)

/-- One iteration of the `while (true)` loop of `main`, after
`int length = SIGetCommand(buffer, sizeof(buffer) * 8 + 1)` has returned
`length` and left the frame buffer as `buffer`.  The result is the replies
handed to `SISetResponse` and the buffer at the end of the iteration. -/
def dispatch (buffer : List Nat) (length : Int) : Option (List Reply × List Nat) :=
  if length < 9 then some ([], buffer)
  else
    match load buffer 0 with
    | none => none
    | some op =>
      if op = CMD_RESET ∨ op = CMD_ID then
        if length = 9 then
          (SISetResponse id.bytes 0 (sizeof_id * 8)).map fun r => ([r], buffer)
        else some ([], buffer)
      else if op = CMD_GBREAD then
        if length = 25 then gbread buffer else some ([], buffer)
      else if op = CMD_GBWRITE then
        if length = 281 then gbwrite buffer else some ([], buffer)
      else some ([], buffer)

/-! ## Reference CRC-8 -/

/-- One bit of the reference CRC: shift the register left by one bit (modulo
256) and XOR with the generator `0x85` when the bit shifted out was 1. -/
def crcBitStep (crc : Nat) : Nat :=
  if crc / 128 % 2 = 1 then (crc * 2 % 256) ^^^ 0x85 else crc * 2 % 256

/-- One byte of the reference CRC, most significant bit first: XOR the byte
into the register, then eight bit steps. -/
def crcByteRef (crc x : Nat) : Nat :=
  crcBitStep^[8] (crc ^^^ x)

/-- Reference CRC-8 as the spec words it: bit by bit, most significant bit
first, generator polynomial `0x85`, initial value 0, no reflection, no final
XOR. -/
def crc8_ref (data : List Nat) : Nat :=
  data.foldl crcByteRef 0


/-! ## Staging invariant -/

/-- The staging slot at offset `off` carries a valid trailing checksum:
`crc8(&buffer[off])` returns a value and `buffer[off + 0x20]` holds it. -/
def slotValid (buffer : List Nat) (off : Nat) : Prop :=
  (crc8 buffer off).isSome = true ∧ crc8 buffer off = load buffer (off + 0x20)

instance (buffer : List Nat) (off : Nat) : Decidable (slotValid buffer off) := by
  unfold slotValid; infer_instance

/-- Both staging slots, the one at `LINK_REP_C0` and the one at `LINK_REP_F0`,
carry a valid trailing checksum. -/
def stagingValid (buffer : List Nat) : Prop :=
  slotValid buffer LINK_REP_C0 ∧ slotValid buffer LINK_REP_F0

instance (buffer : List Nat) : Decidable (stagingValid buffer) := by
  unfold stagingValid; infer_instance

/-- Buffers the `while (true)` loop of `main` can hold at the end of an
iteration: the static `buffer` starts all zero, and each iteration receives a
frame, which leaves a well-formed buffer whose bytes at offsets `0x30` and
above are untouched, then dispatches it. -/
inductive Reachable : List Nat → Prop
  | init : Reachable (List.replicate sizeof_buffer 0)
  | step (b b2 b3 : List Nat) (length : Int) (r : List Reply) :
      Reachable b → WF b2 → b2.drop 0x30 = b.drop 0x30 →
      dispatch b2 length = some (r, b3) → Reachable b3

/-! ## Sample frames

Concrete buffer contents at which the theorems below are instantiated. -/

/-- A GBWRITE frame with an unassigned sub-opcode. -/
def frameWriteOther : List Nat := 0x14 :: 0xAB :: List.replicate 126 7

/-- A RESET frame. -/
def frameReset : List Nat := 0xFF :: List.replicate 127 0

/-- A GBWRITE frame with sub-opcode `0xC0` over a zero buffer. -/
def frameWriteC0 : List Nat := 0x14 :: 0xC0 :: List.replicate 126 0

/-- The buffer `frameWriteC0` leaves behind, after a GBREAD `0xC0` frame has
been received over its first bytes. -/
def frameReadC0 : List Nat :=
  0x13 :: 0xC0 :: (List.replicate 46 0 ++ 2 :: (List.replicate 31 0 ++ 8 :: List.replicate 47 0))

/-- A GBWRITE frame with sub-opcode `0xE0` over a zero buffer. -/
def frameWriteE0 : List Nat := 0x14 :: 0xE0 :: List.replicate 126 0

/-- The buffer `frameWriteE0` leaves behind, after a GBREAD `0xF0` frame has
been received over its first bytes. -/
def frameReadF0 : List Nat :=
  0x13 :: 0xF0 :: (List.replicate 87 0 ++ 0x81 :: (List.replicate 23 0 ++ 72 ::
    List.replicate 14 0))

/-- A GBWRITE frame with sub-opcode `0x80` over a buffer of non-zero bytes. -/
def frameWriteInit : List Nat := 0x14 :: 0x80 :: List.replicate 126 0x5A

/-- A GBREAD frame with sub-opcode `0xC0` over a buffer of distinct bytes. -/
def frameReadRange : List Nat := 0x13 :: 0xC0 :: List.range 126

/-- A frame whose opcode is none of the four the dispatcher knows. -/
def frameUnknown : List Nat := 0x02 :: 0xC0 :: List.replicate 126 9

set_option maxRecDepth 100000

/-! ## Lemmas on memory -/

@[simp] theorem load_eq (mem : List Nat) (i : Nat) : load mem i = mem[i]? := rfl

theorem store_eq (mem : List Nat) (i v : Nat) (h : i < mem.length) :
    store mem i v = some (mem.set i v) := by
  simp [store, h]

theorem WF.length_eq {b : List Nat} (h : WF b) : b.length = 128 := h.1

theorem WF.set {b : List Nat} (h : WF b) (i : Nat) {v : Nat} (hv : v < 256) :
    WF (b.set i v) := by
  refine ⟨by simpa using h.1, fun x hx => ?_⟩
  rcases List.mem_or_eq_of_mem_set hx with hx | hx
  · exact h.2 x hx
  · exact hx ▸ hv

theorem WF.window_lt {b : List Nat} (h : WF b) (ptr n : Nat) :
    ∀ x ∈ (b.drop ptr).take n, x < 256 :=
  fun x hx => h.2 x (List.mem_of_mem_drop (List.mem_of_mem_take hx))

/-! ## Lemmas on the CRC engine -/

theorem crcBitStep_lt (crc : Nat) : crcBitStep crc < 256 := by
  unfold crcBitStep
  split
  · exact Nat.xor_lt_two_pow (n := 8) (Nat.mod_lt _ (by decide)) (by decide)
  · exact Nat.mod_lt _ (by decide)

theorem crcByteRef_lt (crc x : Nat) : crcByteRef crc x < 256 := by
  unfold crcByteRef
  rw [Function.iterate_succ_apply']
  exact crcBitStep_lt _

theorem crcByteRef_zero (crc x : Nat) : crcByteRef 0 (crc ^^^ x) = crcByteRef crc x := by
  simp [crcByteRef]

theorem crc8_lut_eq_map : crc8_lut = (List.range 256).map (crcByteRef 0) := by
  decide

theorem crc8_lut_lookup {v : Nat} (hv : v < 256) :
    load crc8_lut v = some (crcByteRef 0 v) := by
  rw [load_eq, crc8_lut_eq_map, List.getElem?_map, List.getElem?_range hv]
  rfl

theorem foldl_crcByteRef_lt (data : List Nat) :
    ∀ crc, crc < 256 → data.foldl crcByteRef crc < 256 := by
  induction data with
  | nil => intro crc h; simpa using h
  | cons x xs ih => intro crc _; exact ih _ (crcByteRef_lt crc x)

theorem crc8Loop_eq (mem : List Nat) : ∀ (n ptr crc : Nat), crc < 256 →
    ptr + n ≤ mem.length → (∀ x ∈ (mem.drop ptr).take n, x < 256) →
    crc8Loop mem n ptr crc = some (((mem.drop ptr).take n).foldl crcByteRef crc) := by
  intro n
  induction n with
  | zero => intro ptr crc _ _ _; rfl
  | succ n ih =>
    intro ptr crc hcrc hlen hbytes
    have hptr : ptr < mem.length := by omega
    rw [List.drop_eq_getElem_cons hptr, List.take_succ_cons] at hbytes ⊢
    have hx : mem[ptr] < 256 := hbytes _ (List.mem_cons_self _ _)
    have hxor : crc ^^^ mem[ptr] < 256 := Nat.xor_lt_two_pow (n := 8) hcrc hx
    have hload : load mem ptr = some mem[ptr] := by
      rw [load_eq]; exact List.getElem?_eq_getElem hptr
    show (match load mem ptr with
      | none => none
      | some x =>
        match load crc8_lut (crc ^^^ x) with
        | none => none
        | some crc1 => crc8Loop mem n (ptr + 1) crc1) = _
    simp only [hload, crc8_lut_lookup hxor, crcByteRef_zero, List.foldl_cons]
    exact ih (ptr + 1) _ (crcByteRef_lt _ _) (by omega)
      (fun x hx => hbytes x (List.mem_cons_of_mem _ hx))

theorem crc8_eq_ref (mem : List Nat) (ptr : Nat) (hlen : ptr + 32 ≤ mem.length)
    (hbytes : ∀ x ∈ (mem.drop ptr).take 32, x < 256) :
    crc8 mem ptr = some (crc8_ref ((mem.drop ptr).take 32)) :=
  crc8Loop_eq mem 32 ptr 0 (by decide) hlen hbytes

theorem crc8_ref_lt (data : List Nat) : crc8_ref data < 256 :=
  foldl_crcByteRef_lt data 0 (by decide)


/-! ## Lemmas on the dispatcher -/

theorem zeroLoop_spec : ∀ (n i : Nat) (buffer : List Nat), i + n ≤ buffer.length →
    ∃ r, zeroLoop n i buffer = some r ∧
      ∀ j, r[j]? = if i ≤ j ∧ j < i + n then some 0 else buffer[j]? := by
  intro n
  induction n with
  | zero =>
    intro i buffer _
    refine ⟨buffer, rfl, fun j => ?_⟩
    have h0 : ¬ (i ≤ j ∧ j < i + 0) := by omega
    simp only [h0, if_false]
  | succ n ih =>
    intro i buffer hlen
    have hi : i < buffer.length := by omega
    obtain ⟨r, hr, hget⟩ := ih (i + 1) (buffer.set i 0) (by rw [List.length_set]; omega)
    refine ⟨r, ?_, fun j => ?_⟩
    · show (match store buffer i 0 with
        | none => none
        | some buffer1 => zeroLoop n (i + 1) buffer1) = _
      rw [store_eq buffer i 0 hi]; exact hr
    · rw [hget j, List.getElem?_set]
      by_cases hj : i = j
      · subst hj; simp [hi]
      · have h1 : (i + 1 ≤ j ∧ j < i + 1 + n) ↔ (i ≤ j ∧ j < i + (n + 1)) := by omega
        simp only [hj, if_false, h1]

theorem zeroLoop_all {buffer : List Nat} (h : buffer.length = sizeof_buffer) :
    zeroLoop sizeof_buffer 0 buffer = some (List.replicate sizeof_buffer 0) := by
  obtain ⟨r, hr, hget⟩ := zeroLoop_spec sizeof_buffer 0 buffer (by omega)
  rw [hr]
  congr 1
  apply List.ext_getElem?
  intro j
  rw [hget j, List.getElem?_replicate]
  by_cases hj : j < sizeof_buffer
  · simp [hj]
  · have : buffer[j]? = none := List.getElem?_eq_none (by omega)
    simp [hj, this]

theorem SISetResponse_eq (mem : List Nat) (off bits : Nat)
    (h : off + (bits + 7) / 8 ≤ mem.length) :
    SISetResponse mem off bits =
      some { bits := bits, data := (mem.drop off).take ((bits + 7) / 8) } := by
  simp [SISetResponse, h]

theorem drop_take_one_set (mem : List Nat) (i v : Nat) (h : i < mem.length) :
    ((mem.set i v).drop i).take 1 = [v] := by
  have h2 : i < (mem.set i v).length := by simpa using h
  rw [List.drop_eq_getElem_cons h2]
  simp


theorem crc8Loop_succ (mem : List Nat) (n ptr crc : Nat) :
    crc8Loop mem (n + 1) ptr crc =
      match load mem ptr with
      | none => none
      | some x =>
        match load crc8_lut (crc ^^^ x) with
        | none => none
        | some crc1 => crc8Loop mem n (ptr + 1) crc1 := rfl

theorem crc8Loop_congr (m1 m2 : List Nat) : ∀ (n p1 p2 crc : Nat),
    (∀ k, k < n → m1[p1 + k]? = m2[p2 + k]?) →
    crc8Loop m1 n p1 crc = crc8Loop m2 n p2 crc := by
  intro n
  induction n with
  | zero => intro p1 p2 crc _; rfl
  | succ n ih =>
    intro p1 p2 crc h
    have h0 : m1[p1]? = m2[p2]? := by simpa using h 0 (Nat.succ_pos n)
    have hrec : ∀ crc1, crc8Loop m1 n (p1 + 1) crc1 = crc8Loop m2 n (p2 + 1) crc1 := by
      intro crc1
      refine ih (p1 + 1) (p2 + 1) crc1 (fun k hk => ?_)
      have := h (k + 1) (Nat.succ_lt_succ hk)
      rwa [show p1 + (k + 1) = p1 + 1 + k by omega,
        show p2 + (k + 1) = p2 + 1 + k by omega] at this
    rw [crc8Loop_succ, crc8Loop_succ, load_eq, load_eq, h0]
    cases m2[p2]? with
    | none => rfl
    | some x =>
      dsimp only
      cases load crc8_lut (crc ^^^ x) with
      | none => rfl
      | some crc1 => exact hrec crc1

theorem crc8_congr {m1 m2 : List Nat} {p1 p2 : Nat}
    (h : ∀ k, k < 32 → m1[p1 + k]? = m2[p2 + k]?) : crc8 m1 p1 = crc8 m2 p2 :=
  crc8Loop_congr m1 m2 32 p1 p2 0 h

theorem getElem?_window (mem : List Nat) (ptr n : Nat) {k : Nat} (hk : k < n) :
    ((mem.drop ptr).take n)[k]? = mem[ptr + k]? := by
  rw [List.getElem?_take_of_lt hk, List.getElem?_drop]

theorem length_window {mem : List Nat} {ptr n : Nat} (h : ptr + n ≤ mem.length) :
    ((mem.drop ptr).take n).length = n := by
  rw [List.length_take, List.length_drop]; omega

theorem getElem?_of_drop_eq {m1 m2 : List Nat} {p : Nat} (h : m1.drop p = m2.drop p)
    {i : Nat} (hi : p ≤ i) : m1[i]? = m2[i]? := by
  have h1 := congrArg (fun l : List Nat => l[i - p]?) h
  simp only [List.getElem?_drop] at h1
  rwa [Nat.add_sub_cancel' hi] at h1

theorem gbwriteStage_init {b : List Nat} (hwf : WF b) (hsub : b[1]? = some 0x80) :
    gbwriteStage b = some (List.replicate sizeof_buffer 0) := by
  simp only [gbwriteStage, load_eq, hsub, if_true]
  exact zeroLoop_all hwf.1

theorem gbwriteStage_conf {b : List Nat} (hwf : WF b) (hsub : b[1]? = some 0xC0) :
    gbwriteStage b = some ((b.set LINK_REP_C0 0x02).set (LINK_REP_C0 + 0x20)
      (crc8_ref (((b.set LINK_REP_C0 0x02).drop LINK_REP_C0).take 32))) := by
  have hlen := hwf.length_eq
  have hwf1 : WF (b.set LINK_REP_C0 0x02) := hwf.set LINK_REP_C0 (by decide)
  have h1 : store b LINK_REP_C0 0x02 = some (b.set LINK_REP_C0 0x02) :=
    store_eq _ _ _ (by rw [hlen]; decide)
  have h2 := crc8_eq_ref (b.set LINK_REP_C0 0x02) LINK_REP_C0
    (by rw [hwf1.length_eq]; decide) (hwf1.window_lt _ _)
  have h3 := store_eq (b.set LINK_REP_C0 0x02) (LINK_REP_C0 + 0x20)
    (crc8_ref (((b.set LINK_REP_C0 0x02).drop LINK_REP_C0).take 32))
    (by rw [hwf1.length_eq]; decide)
  simp only [gbwriteStage, load_eq, hsub, h1, h2, h3]
  rfl

theorem gbwriteStage_send {b : List Nat} (hwf : WF b) (hsub : b[1]? = some 0xE0) :
    gbwriteStage b = some ((b.set (LINK_REP_F0 + 8) 0x81).set (LINK_REP_F0 + 0x20)
      (crc8_ref (((b.set (LINK_REP_F0 + 8) 0x81).drop LINK_REP_F0).take 32))) := by
  have hlen := hwf.length_eq
  have hwf1 : WF (b.set (LINK_REP_F0 + 8) 0x81) := hwf.set (LINK_REP_F0 + 8) (by decide)
  have h1 : store b (LINK_REP_F0 + 8) 0x81 = some (b.set (LINK_REP_F0 + 8) 0x81) :=
    store_eq _ _ _ (by rw [hlen]; decide)
  have h2 := crc8_eq_ref (b.set (LINK_REP_F0 + 8) 0x81) LINK_REP_F0
    (by rw [hwf1.length_eq]; decide) (hwf1.window_lt _ _)
  have h3 := store_eq (b.set (LINK_REP_F0 + 8) 0x81) (LINK_REP_F0 + 0x20)
    (crc8_ref (((b.set (LINK_REP_F0 + 8) 0x81).drop LINK_REP_F0).take 32))
    (by rw [hwf1.length_eq]; decide)
  simp only [gbwriteStage, load_eq, hsub, h1, h2, h3]
  rfl

theorem gbwriteStage_other {b : List Nat} {sub : Nat} (hsub : b[1]? = some sub)
    (h80 : sub ≠ 0x80) (hC0 : sub ≠ 0xC0) (hE0 : sub ≠ 0xE0) :
    gbwriteStage b = some b := by
  simp only [gbwriteStage, load_eq, hsub, h80, hC0, hE0, if_false]

theorem gbwriteStage_total {b : List Nat} (hwf : WF b) : ∃ b', gbwriteStage b = some b' := by
  have h1 : 1 < b.length := by rw [hwf.length_eq]; decide
  have hsub : b[1]? = some b[1] := List.getElem?_eq_getElem h1
  by_cases h80 : b[1] = 0x80
  · exact ⟨_, gbwriteStage_init hwf (by rw [hsub, h80])⟩
  by_cases hC0 : b[1] = 0xC0
  · exact ⟨_, gbwriteStage_conf hwf (by rw [hsub, hC0])⟩
  by_cases hE0 : b[1] = 0xE0
  · exact ⟨_, gbwriteStage_send hwf (by rw [hsub, hE0])⟩
  exact ⟨_, gbwriteStage_other hsub h80 hC0 hE0⟩

theorem gbwrite_eq {b : List Nat} (hwf : WF b) :
    gbwrite b =
      (gbwriteStage (b.set (LINK_SEND + 0x20) (crc8_ref ((b.drop LINK_SEND).take 32)))).map
        fun b2 => ([{ bits := 8, data := [crc8_ref ((b.drop LINK_SEND).take 32)] }], b2) := by
  have hlen := hwf.length_eq
  have hi : LINK_SEND + 0x20 < b.length := by rw [hlen]; decide
  have h1 := crc8_eq_ref b LINK_SEND (by rw [hlen]; decide)
    (hwf.window_lt _ _)
  have h2 := store_eq b (LINK_SEND + 0x20) (crc8_ref ((b.drop LINK_SEND).take 32)) hi
  have h3 := SISetResponse_eq
    (b.set (LINK_SEND + 0x20) (crc8_ref ((b.drop LINK_SEND).take 32)))
    (LINK_SEND + 0x20) 8 (by rw [List.length_set, hlen]; decide)
  rw [show (8 + 7) / 8 = 1 from rfl, drop_take_one_set _ _ _ hi] at h3
  simp only [gbwrite, h1, h2, h3]

theorem dispatch_gbwrite {b : List Nat} (hop : b[0]? = some CMD_GBWRITE) :
    dispatch b 281 = gbwrite b := by
  simp [dispatch, hop, CMD_GBWRITE, CMD_RESET, CMD_ID, CMD_GBREAD]

theorem dispatch_gbread {b : List Nat} (hop : b[0]? = some CMD_GBREAD) :
    dispatch b 25 = gbread b := by
  simp [dispatch, hop, CMD_GBWRITE, CMD_RESET, CMD_ID, CMD_GBREAD]

theorem gbread_C0 {b : List Nat} (hwf : WF b) (hsub : b[1]? = some 0xC0) :
    gbread b = some ([{ bits := 264, data := (b.drop LINK_REP_C0).take 33 }], b) := by
  have h := SISetResponse_eq b LINK_REP_C0 264
    (by rw [hwf.length_eq]; decide)
  simp only [gbread, load_eq, hsub, h, if_true]
  rfl

theorem gbread_F0 {b : List Nat} (hwf : WF b) (hsub : b[1]? = some 0xF0) :
    gbread b = some ([{ bits := 264, data := (b.drop LINK_REP_F0).take 33 }], b) := by
  have h := SISetResponse_eq b LINK_REP_F0 264
    (by rw [hwf.length_eq]; decide)
  simp only [gbread, load_eq, hsub, h]
  rfl


/-! ## The dispatcher contract -/

/-- C1: for every well-formed buffer whose byte 0 is `CMD_GBWRITE`, whatever
byte 1 is, one dispatch step with length 281 hands the transport exactly one
reply, of 8 bits, whose single byte is `crc8` of the send window at offsets
3..34 of the buffer as received. -/
theorem gbwrite_reply_is_checksum (b : List Nat) (hwf : WF b)
    (hop : b[0]? = some CMD_GBWRITE) :
    ∃ c b1, crc8 b LINK_SEND = some c ∧
      dispatch b 281 = some ([Reply.mk 8 [c]], b1) := by
  have hwf1 : WF (b.set (LINK_SEND + 0x20) (crc8_ref ((b.drop LINK_SEND).take 32))) :=
    hwf.set _ (crc8_ref_lt _)
  obtain ⟨b1, hb1⟩ := gbwriteStage_total hwf1
  refine ⟨crc8_ref ((b.drop LINK_SEND).take 32), b1, ?_, ?_⟩
  · exact crc8_eq_ref b LINK_SEND (by rw [hwf.length_eq]; decide) (hwf.window_lt _ _)
  · rw [dispatch_gbwrite hop, gbwrite_eq hwf, hb1]
    rfl

theorem gbwrite_reply_is_checksum_witness :
    WF (0x14 :: 0xAB :: List.replicate 126 7) ∧
    (0x14 :: 0xAB :: List.replicate 126 7)[0]? = some CMD_GBWRITE ∧
    ∃ c b1, crc8 (0x14 :: 0xAB :: List.replicate 126 7) LINK_SEND = some c ∧
      dispatch (0x14 :: 0xAB :: List.replicate 126 7) 281 = some ([Reply.mk 8 [c]], b1) :=
  ⟨by decide, by decide,
    gbwrite_reply_is_checksum (0x14 :: 0xAB :: List.replicate 126 7) (by decide) (by decide)⟩

/-- C2: for every buffer whose byte 0 is `CMD_RESET` or `CMD_ID`, a dispatch
step with length 9 replies with exactly 24 bits, the bytes `0x00, 0x03, 0x00`
in that order; with any other length it produces no reply. -/
theorem reset_id_reply (b : List Nat) (length : Int)
    (hop : b[0]? = some CMD_RESET ∨ b[0]? = some CMD_ID) :
    (length = 9 → dispatch b length = some ([Reply.mk 24 [0x00, 0x03, 0x00]], b)) ∧
    (length ≠ 9 → dispatch b length = some ([], b)) := by
  constructor
  · intro h9
    subst h9
    rcases hop with hop | hop <;>
      simp [dispatch, hop, CMD_RESET, CMD_ID, SISetResponse, sizeof_id, id, IdRecord.bytes]
  · intro h9
    by_cases hlt : length < 9
    · simp [dispatch, hlt]
    · rcases hop with hop | hop <;>
        simp [dispatch, hop, hlt, h9, CMD_RESET, CMD_ID]

theorem reset_id_reply_witness :
    ((0xFF :: List.replicate 127 0)[0]? = some CMD_RESET ∨
      (0xFF :: List.replicate 127 0)[0]? = some CMD_ID) ∧
    dispatch (0xFF :: List.replicate 127 0) 9 =
      some ([Reply.mk 24 [0x00, 0x03, 0x00]], 0xFF :: List.replicate 127 0) :=
  ⟨by decide,
    (reset_id_reply (0xFF :: List.replicate 127 0) 9 (by decide)).1 rfl⟩


/-- C3: dispatching a GBWRITE frame with sub-opcode `0xC0` (length 281) and
then a GBREAD frame with sub-opcode `0xC0` (length 25) whose reception left
the bytes at offsets `0x30` and above as the first step produced them, makes
the GBREAD reply a 264-bit payload of 33 bytes whose first byte is `0x02` and
whose last byte is `crc8` of its first 32 bytes. -/
theorem gbwrite_C0_then_gbread_C0 (b b2 : List Nat) (hwf : WF b)
    (hop : b[0]? = some CMD_GBWRITE) (hsub : b[1]? = some 0xC0) (hwf2 : WF b2)
    (hop2 : b2[0]? = some CMD_GBREAD) (hsub2 : b2[1]? = some 0xC0) :
    ∃ r1 b1, dispatch b 281 = some (r1, b1) ∧
      (b2.drop 0x30 = b1.drop 0x30 →
        ∃ payload c, dispatch b2 25 = some ([Reply.mk 264 payload], b2) ∧
          payload.length = 33 ∧ payload[0]? = some 0x02 ∧
          crc8 payload 0 = some c ∧ payload[32]? = some c) := by
  obtain ⟨bs, hbs⟩ : ∃ bs, bs = b.set (LINK_SEND + 0x20) (crc8_ref ((b.drop LINK_SEND).take 32)) :=
    ⟨_, rfl⟩
  have hwf1 : WF bs := hbs ▸ hwf.set _ (crc8_ref_lt _)
  have hsub1 : bs[1]? = some 0xC0 := by
    rw [hbs, List.getElem?_set_ne (by decide)]; exact hsub
  obtain ⟨bX, hX⟩ : ∃ bX, bX = bs.set LINK_REP_C0 0x02 := ⟨_, rfl⟩
  have hwfX : WF bX := hX ▸ hwf1.set _ (by decide)
  have hlenX := hwfX.length_eq
  obtain ⟨c, hc⟩ : ∃ c, c = crc8_ref ((bX.drop LINK_REP_C0).take 32) := ⟨_, rfl⟩
  have hcrc : crc8 bX LINK_REP_C0 = some c :=
    hc ▸ crc8_eq_ref bX LINK_REP_C0 (by rw [hlenX]; decide) (hwfX.window_lt _ _)
  have hX30 : bX[0x30]? = some 0x02 := by
    rw [hX]; exact List.getElem?_set_self (by rw [hwf1.length_eq]; decide)
  have hstep : dispatch b 281 = some ([Reply.mk 8 [crc8_ref ((b.drop LINK_SEND).take 32)]],
      bX.set (LINK_REP_C0 + 0x20) c) := by
    rw [dispatch_gbwrite hop, gbwrite_eq hwf, ← hbs, gbwriteStage_conf hwf1 hsub1, ← hX, ← hc]
    rfl
  refine ⟨_, _, hstep, fun hagree => ?_⟩
  refine ⟨(b2.drop LINK_REP_C0).take 33, c, ?_, ?_, ?_, ?_, ?_⟩
  · rw [dispatch_gbread hop2, gbread_C0 hwf2 hsub2]
  · exact length_window (by rw [hwf2.length_eq]; decide)
  · show ((b2.drop 0x30).take 33)[0]? = _
    rw [hagree, getElem?_window _ _ _ (by decide), List.getElem?_set_ne (by decide)]
    exact hX30
  · rw [← hcrc]
    apply crc8_congr
    intro k hk
    show ((b2.drop 0x30).take 33)[0 + k]? = bX[0x30 + k]?
    rw [hagree, Nat.zero_add, getElem?_window _ _ _ (by omega),
      List.getElem?_set_ne (by simp only [LINK_REP_C0]; omega)]
  · show ((b2.drop 0x30).take 33)[32]? = _
    rw [hagree, getElem?_window _ _ _ (by decide)]
    exact List.getElem?_set_self (by rw [hlenX]; decide)


theorem gbwrite_C0_then_gbread_C0_witness :
    WF frameWriteC0 ∧ frameWriteC0[0]? = some CMD_GBWRITE ∧ frameWriteC0[1]? = some 0xC0 ∧
    WF frameReadC0 ∧ frameReadC0[0]? = some CMD_GBREAD ∧ frameReadC0[1]? = some 0xC0 ∧
    ∃ payload c, dispatch frameReadC0 25 = some ([Reply.mk 264 payload], frameReadC0) ∧
      payload.length = 33 ∧ payload[0]? = some 0x02 ∧
      crc8 payload 0 = some c ∧ payload[32]? = some c := by
  refine ⟨by decide, by decide, by decide, by decide, by decide, by decide, ?_⟩
  obtain ⟨r1, b1, h1, h2⟩ := gbwrite_C0_then_gbread_C0 frameWriteC0 frameReadC0
    (by decide) (by decide) (by decide) (by decide) (by decide) (by decide)
  have e : dispatch frameWriteC0 281 =
      some ([Reply.mk 8 [0]],
        0x14 :: 0xC0 :: (List.replicate 46 0 ++ 2 :: (List.replicate 31 0 ++ 8 ::
          List.replicate 47 0))) := by
    decide
  rw [e] at h1
  obtain ⟨-, rfl⟩ := Prod.mk.inj (Option.some.inj h1)
  exact h2 (by decide)


/-- C4: dispatching a GBWRITE frame with sub-opcode `0xE0` (length 281) and
then a GBREAD frame with sub-opcode `0xF0` (length 25) whose reception left
the bytes at offsets `0x30` and above as the first step produced them, makes
the GBREAD reply a 264-bit payload of 33 bytes whose byte at payload offset 8
is `0x81` and whose last byte is `crc8` of its first 32 bytes. -/
theorem gbwrite_E0_then_gbread_F0 (b b2 : List Nat) (hwf : WF b)
    (hop : b[0]? = some CMD_GBWRITE) (hsub : b[1]? = some 0xE0) (hwf2 : WF b2)
    (hop2 : b2[0]? = some CMD_GBREAD) (hsub2 : b2[1]? = some 0xF0) :
    ∃ r1 b1, dispatch b 281 = some (r1, b1) ∧
      (b2.drop 0x30 = b1.drop 0x30 →
        ∃ payload c, dispatch b2 25 = some ([Reply.mk 264 payload], b2) ∧
          payload.length = 33 ∧ payload[8]? = some 0x81 ∧
          crc8 payload 0 = some c ∧ payload[32]? = some c) := by
  obtain ⟨bs, hbs⟩ : ∃ bs, bs = b.set (LINK_SEND + 0x20) (crc8_ref ((b.drop LINK_SEND).take 32)) :=
    ⟨_, rfl⟩
  have hwf1 : WF bs := hbs ▸ hwf.set _ (crc8_ref_lt _)
  have hsub1 : bs[1]? = some 0xE0 := by
    rw [hbs, List.getElem?_set_ne (by decide)]; exact hsub
  obtain ⟨bX, hX⟩ : ∃ bX, bX = bs.set (LINK_REP_F0 + 8) 0x81 := ⟨_, rfl⟩
  have hwfX : WF bX := hX ▸ hwf1.set _ (by decide)
  have hlenX := hwfX.length_eq
  obtain ⟨c, hc⟩ : ∃ c, c = crc8_ref ((bX.drop LINK_REP_F0).take 32) := ⟨_, rfl⟩
  have hcrc : crc8 bX LINK_REP_F0 = some c :=
    hc ▸ crc8_eq_ref bX LINK_REP_F0 (by rw [hlenX]; decide) (hwfX.window_lt _ _)
  have hX59 : bX[0x51 + 8]? = some 0x81 := by
    rw [hX]; exact List.getElem?_set_self (by rw [hwf1.length_eq]; decide)
  have hstep : dispatch b 281 = some ([Reply.mk 8 [crc8_ref ((b.drop LINK_SEND).take 32)]],
      bX.set (LINK_REP_F0 + 0x20) c) := by
    rw [dispatch_gbwrite hop, gbwrite_eq hwf, ← hbs, gbwriteStage_send hwf1 hsub1, ← hX, ← hc]
    rfl
  refine ⟨_, _, hstep, fun hagree => ?_⟩
  have hsame : ∀ k, (b2)[0x51 + k]? = (bX.set (LINK_REP_F0 + 0x20) c)[0x51 + k]? :=
    fun k => getElem?_of_drop_eq hagree (by omega)
  refine ⟨(b2.drop LINK_REP_F0).take 33, c, ?_, ?_, ?_, ?_, ?_⟩
  · rw [dispatch_gbread hop2, gbread_F0 hwf2 hsub2]
  · exact length_window (by rw [hwf2.length_eq]; decide)
  · show ((b2.drop 0x51).take 33)[8]? = _
    rw [getElem?_window _ _ _ (by decide), hsame, List.getElem?_set_ne (by decide)]
    exact hX59
  · rw [← hcrc]
    apply crc8_congr
    intro k hk
    show ((b2.drop 0x51).take 33)[0 + k]? = bX[0x51 + k]?
    rw [Nat.zero_add, getElem?_window _ _ _ (by omega), hsame,
      List.getElem?_set_ne (by simp only [LINK_REP_F0]; omega)]
  · show ((b2.drop 0x51).take 33)[32]? = _
    rw [getElem?_window _ _ _ (by decide), hsame]
    exact List.getElem?_set_self (by rw [hlenX]; decide)

theorem gbwrite_E0_then_gbread_F0_witness :
    WF frameWriteE0 ∧ frameWriteE0[0]? = some CMD_GBWRITE ∧ frameWriteE0[1]? = some 0xE0 ∧
    WF frameReadF0 ∧ frameReadF0[0]? = some CMD_GBREAD ∧ frameReadF0[1]? = some 0xF0 ∧
    ∃ payload c, dispatch frameReadF0 25 = some ([Reply.mk 264 payload], frameReadF0) ∧
      payload.length = 33 ∧ payload[8]? = some 0x81 ∧
      crc8 payload 0 = some c ∧ payload[32]? = some c := by
  refine ⟨by decide, by decide, by decide, by decide, by decide, by decide, ?_⟩
  obtain ⟨r1, b1, h1, h2⟩ := gbwrite_E0_then_gbread_F0 frameWriteE0 frameReadF0
    (by decide) (by decide) (by decide) (by decide) (by decide) (by decide)
  have e : dispatch frameWriteE0 281 =
      some ([Reply.mk 8 [0]],
        0x14 :: 0xE0 :: (List.replicate 87 0 ++ 0x81 :: (List.replicate 23 0 ++ 72 ::
          List.replicate 14 0))) := by
    decide
  rw [e] at h1
  obtain ⟨-, rfl⟩ := Prod.mk.inj (Option.some.inj h1)
  exact h2 (by decide)

/-- C5: for every well-formed buffer whose byte 0 is `CMD_GBWRITE` and byte 1
is `0x80`, after one dispatch step with length 281 the buffer consists of 128
zero bytes. -/
theorem gbwrite_init_zeroes_buffer (b : List Nat) (hwf : WF b)
    (hop : b[0]? = some CMD_GBWRITE) (hsub : b[1]? = some 0x80) :
    ∃ r, dispatch b 281 = some (r, List.replicate 128 0) := by
  have hwf1 : WF (b.set (LINK_SEND + 0x20) (crc8_ref ((b.drop LINK_SEND).take 32))) :=
    hwf.set _ (crc8_ref_lt _)
  have hsub1 : (b.set (LINK_SEND + 0x20) (crc8_ref ((b.drop LINK_SEND).take 32)))[1]? =
      some 0x80 := by
    rw [List.getElem?_set_ne (by decide)]; exact hsub
  refine ⟨[Reply.mk 8 [crc8_ref ((b.drop LINK_SEND).take 32)]], ?_⟩
  rw [dispatch_gbwrite hop, gbwrite_eq hwf, gbwriteStage_init hwf1 hsub1]
  rfl

theorem gbwrite_init_zeroes_buffer_witness :
    WF frameWriteInit ∧ frameWriteInit[0]? = some CMD_GBWRITE ∧
    frameWriteInit[1]? = some 0x80 ∧
    ∃ r, dispatch frameWriteInit 281 = some (r, List.replicate 128 0) :=
  ⟨by decide, by decide, by decide,
    gbwrite_init_zeroes_buffer frameWriteInit (by decide) (by decide) (by decide)⟩


/-- C6: for every well-formed buffer whose byte 0 is `CMD_GBREAD`: with length
25 and sub-opcode `0xC0` the reply is exactly 264 bits, the 33 buffer bytes at
offsets `0x30..0x50` in order; with length 25 and sub-opcode `0xF0` it is
exactly 264 bits, the 33 buffer bytes at offsets `0x51..0x71` in order; for
every other sub-opcode and for every length other than 25 there is no reply. -/
theorem gbread_reply (b : List Nat) (length : Int) (hwf : WF b)
    (hop : b[0]? = some CMD_GBREAD) :
    (length = 25 → b[1]? = some 0xC0 →
      ∃ payload, dispatch b length = some ([Reply.mk 264 payload], b) ∧
        payload.length = 33 ∧ ∀ k, k < 33 → payload[k]? = b[0x30 + k]?) ∧
    (length = 25 → b[1]? = some 0xF0 →
      ∃ payload, dispatch b length = some ([Reply.mk 264 payload], b) ∧
        payload.length = 33 ∧ ∀ k, k < 33 → payload[k]? = b[0x51 + k]?) ∧
    (length ≠ 25 ∨ (b[1]? ≠ some 0xC0 ∧ b[1]? ≠ some 0xF0) →
      dispatch b length = some ([], b)) := by
  refine ⟨fun h25 hsub => ?_, fun h25 hsub => ?_, fun h => ?_⟩
  · subst h25
    refine ⟨(b.drop LINK_REP_C0).take 33, ?_, ?_, fun k hk => ?_⟩
    · rw [dispatch_gbread hop, gbread_C0 hwf hsub]
    · exact length_window (by rw [hwf.length_eq]; decide)
    · exact getElem?_window b 0x30 33 hk
  · subst h25
    refine ⟨(b.drop LINK_REP_F0).take 33, ?_, ?_, fun k hk => ?_⟩
    · rw [dispatch_gbread hop, gbread_F0 hwf hsub]
    · exact length_window (by rw [hwf.length_eq]; decide)
    · exact getElem?_window b 0x51 33 hk
  · by_cases hlt : length < 9
    · simp [dispatch, hlt]
    by_cases h25 : length = 25
    · subst h25
      have hsub : b[1]? ≠ some 0xC0 ∧ b[1]? ≠ some 0xF0 := h.resolve_left (fun hne => hne rfl)
      have h1 : 1 < b.length := by rw [hwf.length_eq]; decide
      have hget : b[1]? = some b[1] := List.getElem?_eq_getElem h1
      have hC0 : b[1] ≠ 0xC0 := fun e => hsub.1 (by rw [hget, e])
      have hF0 : b[1] ≠ 0xF0 := fun e => hsub.2 (by rw [hget, e])
      rw [dispatch_gbread hop]
      simp only [gbread, load_eq, hget, hC0, hF0, if_false]
    · simp [dispatch, hop, hlt, h25, CMD_GBREAD, CMD_RESET, CMD_ID]

theorem gbread_reply_witness :
    WF frameReadRange ∧ frameReadRange[0]? = some CMD_GBREAD ∧
    ∃ payload, dispatch frameReadRange 25 = some ([Reply.mk 264 payload], frameReadRange) ∧
      payload.length = 33 ∧ ∀ k, k < 33 → payload[k]? = frameReadRange[0x30 + k]? :=
  ⟨by decide, by decide,
    (gbread_reply frameReadRange 25 (by decide) (by decide)).1 rfl (by decide)⟩

/-- C7: for every buffer content and every received length below 9, zero and
negative values included, one dispatch step produces no reply (and leaves the
buffer as it is). -/
theorem short_frame_no_reply (b : List Nat) (length : Int) (hshort : length < 9) :
    dispatch b length = some ([], b) := by
  simp [dispatch, hshort]

theorem short_frame_no_reply_witness :
    (-1 : Int) < 9 ∧ dispatch frameWriteC0 (-1) = some ([], frameWriteC0) :=
  ⟨by decide, short_frame_no_reply frameWriteC0 (-1) (by decide)⟩

/-- C8: for every buffer content whose byte 0 is `CMD_GBWRITE` and every
received length other than 281, one dispatch step produces no reply and
leaves the buffer unchanged; no checksum is stored at offset `0x23`. -/
theorem gbwrite_wrong_length (b : List Nat) (length : Int)
    (hop : b[0]? = some CMD_GBWRITE) (hlen : length ≠ 281) :
    dispatch b length = some ([], b) := by
  by_cases hlt : length < 9
  · simp [dispatch, hlt]
  · simp [dispatch, hop, hlt, hlen, CMD_GBWRITE, CMD_GBREAD, CMD_RESET, CMD_ID]

theorem gbwrite_wrong_length_witness :
    frameWriteInit[0]? = some CMD_GBWRITE ∧ (280 : Int) ≠ 281 ∧
    dispatch frameWriteInit 280 = some ([], frameWriteInit) :=
  ⟨by decide, by decide, gbwrite_wrong_length frameWriteInit 280 (by decide) (by decide)⟩

/-- C9: for every buffer content whose byte 0 is none of `CMD_ID`,
`CMD_RESET`, `CMD_GBREAD`, `CMD_GBWRITE`, and every received length, one
dispatch step produces no reply and leaves the buffer unchanged. -/
theorem unknown_opcode_ignored (b : List Nat) (length : Int) (op : Nat)
    (hop : b[0]? = some op) (hID : op ≠ CMD_ID) (hRESET : op ≠ CMD_RESET)
    (hGBREAD : op ≠ CMD_GBREAD) (hGBWRITE : op ≠ CMD_GBWRITE) :
    dispatch b length = some ([], b) := by
  by_cases hlt : length < 9
  · simp [dispatch, hlt]
  · simp [dispatch, hop, hlt, hID, hRESET, hGBREAD, hGBWRITE]

theorem unknown_opcode_ignored_witness :
    frameUnknown[0]? = some 0x02 ∧ 0x02 ≠ CMD_ID ∧ 0x02 ≠ CMD_RESET ∧
    0x02 ≠ CMD_GBREAD ∧ 0x02 ≠ CMD_GBWRITE ∧
    dispatch frameUnknown 281 = some ([], frameUnknown) :=
  ⟨by decide, by decide, by decide, by decide, by decide,
    unknown_opcode_ignored frameUnknown 281 0x02 (by decide) (by decide) (by decide)
      (by decide) (by decide)⟩

/-- C10: for every 32-byte input, wherever it lies in memory, `crc8` returns
a value that depends on those 32 bytes only, namely the reference CRC-8 of
the input: bit by bit, most significant bit first, generator `0x85`, initial
value 0, no reflection, no final XOR. -/
theorem crc8_matches_reference (input : List Nat) (hlen : input.length = 32)
    (hbytes : ∀ x ∈ input, x < 256) (mem : List Nat) (ptr : Nat)
    (hwin : (mem.drop ptr).take 32 = input) :
    crc8 mem ptr = some (crc8_ref input) := by
  have hlen2 : ptr + 32 ≤ mem.length := by
    have h := congrArg List.length hwin
    rw [List.length_take, List.length_drop, hlen] at h
    omega
  subst hwin
  exact crc8Loop_eq mem 32 ptr 0 (by decide) hlen2 hbytes

theorem crc8_matches_reference_witness :
    (List.range 32).length = 32 ∧ (∀ x ∈ List.range 32, x < 256) ∧
    ((7 :: List.range 40).drop 1).take 32 = List.range 32 ∧
    crc8 (7 :: List.range 40) 1 = some (crc8_ref (List.range 32)) :=
  ⟨by decide, by decide, by decide,
    crc8_matches_reference (List.range 32) (by decide) (by decide) (7 :: List.range 40) 1
      (by decide)⟩


/-! ## Behaviour of the table and of the staging step -/

/-- C11: for every byte value `v`, the table entry `crc8_lut[v]` is the result
of one CRC-8 round on `v`, that is eight bit steps (shift left modulo 256, XOR
with `0x85` when the bit shifted out was 1); in particular `crc8_lut[0] = 0`
and `crc8_lut[1] = 0x85`. -/
theorem crc8_lut_is_one_round (v : Nat) (hv : v < 256) :
    load crc8_lut v = some (crcBitStep^[8] v) ∧
    load crc8_lut 0 = some 0 ∧ load crc8_lut 1 = some 0x85 := by
  refine ⟨?_, by decide, by decide⟩
  rw [crc8_lut_lookup hv]
  simp only [crcByteRef, Nat.zero_xor]

theorem crc8_lut_is_one_round_witness :
    (0xA7 : Nat) < 256 ∧
    (load crc8_lut 0xA7 = some (crcBitStep^[8] 0xA7) ∧
      load crc8_lut 0 = some 0 ∧ load crc8_lut 1 = some 0x85) :=
  ⟨by decide, crc8_lut_is_one_round 0xA7 (by decide)⟩

/-- C12: for every well-formed buffer whose byte 0 is `CMD_GBWRITE` and whose
sub-opcode is none of `0x80`, `0xC0`, `0xE0`, one dispatch step with length 281
sends the 8-bit checksum reply and performs no staging: the buffer afterwards
is the buffer before with `crc8` of bytes 3..34 stored at offset `0x23`. -/
theorem gbwrite_other_no_staging (b : List Nat) (sub : Nat) (hwf : WF b)
    (hop : b[0]? = some CMD_GBWRITE) (hsub : b[1]? = some sub)
    (h80 : sub ≠ 0x80) (hC0 : sub ≠ 0xC0) (hE0 : sub ≠ 0xE0) :
    ∃ c, crc8 b LINK_SEND = some c ∧
      dispatch b 281 = some ([Reply.mk 8 [c]], b.set 0x23 c) := by
  refine ⟨crc8_ref ((b.drop LINK_SEND).take 32), ?_, ?_⟩
  · exact crc8_eq_ref b LINK_SEND (by rw [hwf.length_eq]; decide) (hwf.window_lt _ _)
  · have hsub1 : (b.set (LINK_SEND + 0x20) (crc8_ref ((b.drop LINK_SEND).take 32)))[1]? =
        some sub := by
      rw [List.getElem?_set_ne (by decide)]; exact hsub
    rw [dispatch_gbwrite hop, gbwrite_eq hwf, gbwriteStage_other hsub1 h80 hC0 hE0]
    rfl

theorem gbwrite_other_no_staging_witness :
    WF frameWriteOther ∧ frameWriteOther[0]? = some CMD_GBWRITE ∧
    frameWriteOther[1]? = some 0xAB ∧ (0xAB : Nat) ≠ 0x80 ∧ (0xAB : Nat) ≠ 0xC0 ∧
    (0xAB : Nat) ≠ 0xE0 ∧
    ∃ c, crc8 frameWriteOther LINK_SEND = some c ∧
      dispatch frameWriteOther 281 = some ([Reply.mk 8 [c]], frameWriteOther.set 0x23 c) :=
  ⟨by decide, by decide, by decide, by decide, by decide, by decide,
    gbwrite_other_no_staging frameWriteOther 0xAB (by decide) (by decide) (by decide)
      (by decide) (by decide) (by decide)⟩


/-! ## Case analysis of one dispatch step -/

theorem WF_zero : WF (List.replicate sizeof_buffer 0) := by decide

theorem getElem?_zero_of_WF {b : List Nat} (hwf : WF b) : b[0]? = some b[0]! := by
  have h0 : 0 < b.length := by rw [hwf.length_eq]; decide
  rw [List.getElem?_eq_getElem h0, getElem!_pos b 0 h0]

theorem getElem?_one_of_WF {b : List Nat} (hwf : WF b) : b[1]? = some b[1]! := by
  have h1 : 1 < b.length := by rw [hwf.length_eq]; decide
  rw [List.getElem?_eq_getElem h1, getElem!_pos b 1 h1]

theorem dispatch_ident {b : List Nat} (hop : b[0]? = some CMD_RESET ∨ b[0]? = some CMD_ID) :
    dispatch b 9 = some ([Reply.mk 24 [0x00, 0x03, 0x00]], b) := by
  rcases hop with hop | hop <;>
    simp [dispatch, hop, CMD_RESET, CMD_ID, SISetResponse, sizeof_id, id, IdRecord.bytes]

theorem gbread_other {b : List Nat} {sub : Nat} (hsub : b[1]? = some sub)
    (hC0 : sub ≠ 0xC0) (hF0 : sub ≠ 0xF0) : gbread b = some ([], b) := by
  simp only [gbread, load_eq, hsub, hC0, hF0, if_false]

theorem gbread_keeps_buffer {b : List Nat} (hwf : WF b) : ∃ r, gbread b = some (r, b) := by
  have hsub := getElem?_one_of_WF hwf
  by_cases hC0 : b[1]! = 0xC0
  · exact ⟨_, gbread_C0 hwf (by rw [hsub, hC0])⟩
  by_cases hF0 : b[1]! = 0xF0
  · exact ⟨_, gbread_F0 hwf (by rw [hsub, hF0])⟩
  exact ⟨_, gbread_other hsub hC0 hF0⟩

theorem dispatch_buffer_cases {b : List Nat} (length : Int) (hwf : WF b) :
    (∃ r, dispatch b length = some (r, b)) ∨ (b[0]? = some CMD_GBWRITE ∧ length = 281) := by
  by_cases hlt : length < 9
  · exact Or.inl ⟨[], by simp [dispatch, hlt]⟩
  have hop := getElem?_zero_of_WF hwf
  by_cases hI : b[0]! = CMD_RESET ∨ b[0]! = CMD_ID
  · left
    by_cases h9 : length = 9
    · subst h9
      exact ⟨_, dispatch_ident (hI.imp (fun h => by rw [hop, h]) (fun h => by rw [hop, h]))⟩
    · exact ⟨[], by simp [dispatch, hlt, hop, hI, h9]⟩
  by_cases hR : b[0]! = CMD_GBREAD
  · left
    rw [hR] at hop
    by_cases h25 : length = 25
    · subst h25
      obtain ⟨r, hr⟩ := gbread_keeps_buffer hwf
      exact ⟨r, by rw [dispatch_gbread hop, hr]⟩
    · exact ⟨[], by simp [dispatch, hlt, hop, h25, CMD_GBREAD, CMD_RESET, CMD_ID]⟩
  by_cases hW : b[0]! = CMD_GBWRITE
  · rw [hW] at hop
    by_cases h281 : length = 281
    · exact Or.inr ⟨hop, h281⟩
    · exact Or.inl ⟨[], by
        simp [dispatch, hlt, hop, h281, CMD_GBWRITE, CMD_GBREAD, CMD_RESET, CMD_ID]⟩
  · exact Or.inl ⟨[], by simp [dispatch, hlt, hop, hI, hR, hW]⟩

theorem dispatch_gbwrite_cases {b : List Nat} (hwf : WF b) (hop : b[0]? = some CMD_GBWRITE) :
    ∃ c bs b1, c = crc8_ref ((b.drop LINK_SEND).take 32) ∧ bs = b.set 0x23 c ∧ WF bs ∧
      dispatch b 281 = some ([Reply.mk 8 [c]], b1) ∧
      ((b[1]? = some 0x80 ∧ b1 = List.replicate sizeof_buffer 0) ∨
       (b[1]? = some 0xC0 ∧ b1 = (bs.set 0x30 0x02).set 0x50
          (crc8_ref (((bs.set 0x30 0x02).drop 0x30).take 32))) ∨
       (b[1]? = some 0xE0 ∧ b1 = (bs.set 0x59 0x81).set 0x71
          (crc8_ref (((bs.set 0x59 0x81).drop 0x51).take 32))) ∨
       (b[1]? ≠ some 0x80 ∧ b[1]? ≠ some 0xC0 ∧ b[1]? ≠ some 0xE0 ∧ b1 = bs)) := by
  have hwf1 : WF (b.set (LINK_SEND + 0x20) (crc8_ref ((b.drop LINK_SEND).take 32))) :=
    hwf.set _ (crc8_ref_lt _)
  have hsub := getElem?_one_of_WF hwf
  have hsub1 : (b.set (LINK_SEND + 0x20) (crc8_ref ((b.drop LINK_SEND).take 32)))[1]? =
      some b[1]! := by
    rw [List.getElem?_set_ne (by decide)]; exact hsub
  have hd := dispatch_gbwrite hop
  rw [gbwrite_eq hwf] at hd
  have hne : ∀ v : Nat, b[1]! ≠ v → b[1]? ≠ some v :=
    fun v h e => h (Option.some.inj (hsub.symm.trans e))
  by_cases h80 : b[1]! = 0x80
  · refine ⟨_, _, _, rfl, rfl, hwf1, ?_, Or.inl ⟨by rw [hsub, h80], rfl⟩⟩
    rw [hd, gbwriteStage_init hwf1 (by rw [hsub1, h80])]
    rfl
  by_cases hC0 : b[1]! = 0xC0
  · refine ⟨_, _, _, rfl, rfl, hwf1, ?_, Or.inr (Or.inl ⟨by rw [hsub, hC0], rfl⟩)⟩
    rw [hd, gbwriteStage_conf hwf1 (by rw [hsub1, hC0])]
    rfl
  by_cases hE0 : b[1]! = 0xE0
  · refine ⟨_, _, _, rfl, rfl, hwf1, ?_, Or.inr (Or.inr (Or.inl ⟨by rw [hsub, hE0], rfl⟩))⟩
    rw [hd, gbwriteStage_send hwf1 (by rw [hsub1, hE0])]
    rfl
  · refine ⟨_, _, _, rfl, rfl, hwf1, ?_,
      Or.inr (Or.inr (Or.inr ⟨hne _ h80, hne _ hC0, hne _ hE0, rfl⟩))⟩
    rw [hd, gbwriteStage_other hsub1 h80 hC0 hE0]
    rfl


theorem drop_eq_of_drop_eq {m1 m2 : List Nat} {p : Nat} (h : m1.drop p = m2.drop p)
    (q : Nat) : m1.drop (p + q) = m2.drop (p + q) := by
  have h1 := congrArg (List.drop q) h
  rwa [List.drop_drop, List.drop_drop] at h1

theorem dispatch_total {b : List Nat} (length : Int) (hwf : WF b) :
    ∃ r b1, dispatch b length = some (r, b1) ∧ WF b1 := by
  rcases dispatch_buffer_cases length hwf with ⟨r, hr⟩ | ⟨hop, h281⟩
  · exact ⟨r, b, hr, hwf⟩
  · subst h281
    obtain ⟨c, bs, b1, -, -, hwfs, hd, hcases⟩ := dispatch_gbwrite_cases hwf hop
    refine ⟨_, b1, hd, ?_⟩
    rcases hcases with ⟨-, h⟩ | ⟨-, h⟩ | ⟨-, h⟩ | ⟨-, -, -, h⟩
    · rw [h]; exact WF_zero
    · rw [h]; exact (hwfs.set _ (by decide)).set _ (crc8_ref_lt _)
    · rw [h]; exact (hwfs.set _ (by decide)).set _ (crc8_ref_lt _)
    · rw [h]; exact hwfs

theorem dispatch_short_buffer_fails :
    dispatch (0x14 :: 0xE0 :: List.replicate 98 0) 281 = none := by decide

theorem crc8_non_byte_fails : crc8 (List.replicate 32 300) 0 = none := by decide

/-- C14: for every well-formed buffer and every received length, one dispatch
step returns a result, so no buffer access of the step leaves `0..127` (an
access outside yields `none` in this embedding), and the buffer it leaves is
again well-formed; `crc8` at any offset with 32 bytes inside the buffer
returns a byte, so every `crc8_lut` index it uses lies in `0..255`; and the
fixed ranges the dispatcher touches all lie inside the 128 bytes. -/
theorem dispatch_in_bounds (b : List Nat) (length : Int) (hwf : WF b) :
    (∃ r b1, dispatch b length = some (r, b1) ∧ WF b1) ∧
    (∀ ptr, ptr + 32 ≤ sizeof_buffer → ∃ c, crc8 b ptr = some c ∧ c < 256) ∧
    (LINK_SEND + 32 ≤ sizeof_buffer ∧ LINK_SEND + 0x20 < sizeof_buffer ∧
      LINK_REP_C0 + 33 ≤ sizeof_buffer ∧ LINK_REP_F0 + 8 < sizeof_buffer ∧
      LINK_REP_F0 + 33 ≤ sizeof_buffer) := by
  refine ⟨dispatch_total length hwf, fun ptr hptr => ?_, by decide⟩
  exact ⟨_, crc8_eq_ref b ptr (by rw [hwf.length_eq]; exact hptr) (hwf.window_lt _ _),
    crc8_ref_lt _⟩

theorem dispatch_in_bounds_witness :
    WF frameWriteE0 ∧
    ((∃ r b1, dispatch frameWriteE0 281 = some (r, b1) ∧ WF b1) ∧
    (∀ ptr, ptr + 32 ≤ sizeof_buffer → ∃ c, crc8 frameWriteE0 ptr = some c ∧ c < 256) ∧
    (LINK_SEND + 32 ≤ sizeof_buffer ∧ LINK_SEND + 0x20 < sizeof_buffer ∧
      LINK_REP_C0 + 33 ≤ sizeof_buffer ∧ LINK_REP_F0 + 8 < sizeof_buffer ∧
      LINK_REP_F0 + 33 ≤ sizeof_buffer)) :=
  ⟨by decide, dispatch_in_bounds frameWriteE0 281 (by decide)⟩

/-- C15: for every well-formed buffer whose byte 0 is `CMD_GBWRITE`, at length
281: with sub-opcode `0xC0` the buffer after dispatch differs from the buffer
before at most at offsets `0x23`, `0x30` and `0x50`; with sub-opcode `0xE0` it
differs at most at offsets `0x23`, `0x59` and `0x71`. -/
theorem gbwrite_staging_frame (b : List Nat) (hwf : WF b)
    (hop : b[0]? = some CMD_GBWRITE) :
    (b[1]? = some 0xC0 → ∃ r b1, dispatch b 281 = some (r, b1) ∧ b1.length = b.length ∧
      ∀ i, i ≠ 0x23 → i ≠ 0x30 → i ≠ 0x50 → b1[i]? = b[i]?) ∧
    (b[1]? = some 0xE0 → ∃ r b1, dispatch b 281 = some (r, b1) ∧ b1.length = b.length ∧
      ∀ i, i ≠ 0x23 → i ≠ 0x59 → i ≠ 0x71 → b1[i]? = b[i]?) := by
  obtain ⟨c, bs, b1, -, hbs, -, hd, hcases⟩ := dispatch_gbwrite_cases hwf hop
  constructor
  · intro hsub
    rcases hcases with ⟨h, -⟩ | ⟨-, h⟩ | ⟨h, -⟩ | ⟨-, h, -⟩
    · rw [hsub] at h; exact absurd h (by decide)
    · refine ⟨_, b1, hd, ?_, fun i h23 h30 h50 => ?_⟩
      · rw [h, hbs]; simp only [List.length_set]
      · rw [h, hbs, List.getElem?_set_ne (Ne.symm h50), List.getElem?_set_ne (Ne.symm h30),
          List.getElem?_set_ne (Ne.symm h23)]
    · rw [hsub] at h; exact absurd h (by decide)
    · exact absurd hsub h
  · intro hsub
    rcases hcases with ⟨h, -⟩ | ⟨h, -⟩ | ⟨-, h⟩ | ⟨-, -, h, -⟩
    · rw [hsub] at h; exact absurd h (by decide)
    · rw [hsub] at h; exact absurd h (by decide)
    · refine ⟨_, b1, hd, ?_, fun i h23 h59 h71 => ?_⟩
      · rw [h, hbs]; simp only [List.length_set]
      · rw [h, hbs, List.getElem?_set_ne (Ne.symm h71), List.getElem?_set_ne (Ne.symm h59),
          List.getElem?_set_ne (Ne.symm h23)]
    · exact absurd hsub h

theorem gbwrite_staging_frame_witness :
    WF frameWriteC0 ∧ frameWriteC0[0]? = some CMD_GBWRITE ∧
    ∃ r b1, dispatch frameWriteC0 281 = some (r, b1) ∧ b1.length = frameWriteC0.length ∧
      ∀ i, i ≠ 0x23 → i ≠ 0x30 → i ≠ 0x50 → b1[i]? = frameWriteC0[i]? :=
  ⟨by decide, by decide,
    (gbwrite_staging_frame frameWriteC0 (by decide) (by decide)).1 (by decide)⟩

/-- C16: for every well-formed buffer whose byte 0 is `CMD_ID`, `CMD_RESET` or
`CMD_GBREAD`, and every received length, one dispatch step leaves the buffer
unchanged; hence a GBREAD followed by a GBREAD with the same sub-opcode, the
frame in between having overwritten only bytes below offset `0x30`, hands
over the same reply. -/
theorem read_commands_keep_buffer (b : List Nat) (length : Int) (hwf : WF b)
    (hop : b[0]? = some CMD_ID ∨ b[0]? = some CMD_RESET ∨ b[0]? = some CMD_GBREAD) :
    (∃ r, dispatch b length = some (r, b)) ∧
    (b[0]? = some CMD_GBREAD → ∀ b2, WF b2 → b2[0]? = some CMD_GBREAD → b2[1]? = b[1]? →
      b2.drop 0x30 = b.drop 0x30 →
      ∃ r, dispatch b 25 = some (r, b) ∧ dispatch b2 25 = some (r, b2)) := by
  constructor
  · rcases dispatch_buffer_cases length hwf with h | ⟨hW, -⟩
    · exact h
    · rw [hW] at hop
      rcases hop with h | h | h <;> exact absurd (Option.some.inj h) (by decide)
  · intro hR b2 hwf2 hR2 hsub2 hagree
    rw [dispatch_gbread hR, dispatch_gbread hR2]
    have hsub := getElem?_one_of_WF hwf
    rw [hsub] at hsub2
    by_cases hC0 : b[1]! = 0xC0
    · rw [hC0] at hsub hsub2
      refine ⟨_, gbread_C0 hwf hsub, ?_⟩
      rw [gbread_C0 hwf2 hsub2]
      show some ([Reply.mk 264 ((b2.drop 0x30).take 33)], b2) = _
      rw [hagree]
      rfl
    by_cases hF0 : b[1]! = 0xF0
    · rw [hF0] at hsub hsub2
      refine ⟨_, gbread_F0 hwf hsub, ?_⟩
      rw [gbread_F0 hwf2 hsub2]
      show some ([Reply.mk 264 ((b2.drop (0x30 + 0x21)).take 33)], b2) = _
      rw [drop_eq_of_drop_eq hagree 0x21]
      rfl
    · exact ⟨_, gbread_other hsub hC0 hF0, gbread_other hsub2 hC0 hF0⟩

theorem read_commands_keep_buffer_witness :
    WF frameReadRange ∧
    (frameReadRange[0]? = some CMD_ID ∨ frameReadRange[0]? = some CMD_RESET ∨
      frameReadRange[0]? = some CMD_GBREAD) ∧
    ((∃ r, dispatch frameReadRange 25 = some (r, frameReadRange)) ∧
    (frameReadRange[0]? = some CMD_GBREAD → ∀ b2, WF b2 → b2[0]? = some CMD_GBREAD →
      b2[1]? = frameReadRange[1]? → b2.drop 0x30 = frameReadRange.drop 0x30 →
      ∃ r, dispatch frameReadRange 25 = some (r, frameReadRange) ∧
        dispatch b2 25 = some (r, b2))) :=
  ⟨by decide, by decide, read_commands_keep_buffer frameReadRange 25 (by decide) (by decide)⟩

/-! ## The staging invariant -/

theorem stagingValid_zero : stagingValid (List.replicate sizeof_buffer 0) := by decide

theorem slotValid_congr {m1 m2 : List Nat} {off : Nat}
    (h : ∀ k, k ≤ 32 → m2[off + k]? = m1[off + k]?) (hv : slotValid m1 off) :
    slotValid m2 off := by
  have hcrc : crc8 m2 off = crc8 m1 off := crc8_congr (fun k hk => h k (Nat.le_of_lt hk))
  have hld : load m2 (off + 0x20) = load m1 (off + 0x20) := h 32 (Nat.le_refl _)
  unfold slotValid
  rw [hcrc, hld]
  exact hv

theorem slotValid_set_outside {b : List Nat} {off i : Nat} (v : Nat)
    (h : i < off ∨ off + 32 < i) (hv : slotValid b off) : slotValid (b.set i v) off :=
  slotValid_congr (fun k hk => List.getElem?_set_ne (by omega)) hv

theorem slotValid_stamp {b : List Nat} (hwf : WF b) (off : Nat) (hoff : off + 33 ≤ 128) :
    slotValid (b.set (off + 0x20) (crc8_ref ((b.drop off).take 32))) off := by
  have hcrc : crc8 (b.set (off + 0x20) (crc8_ref ((b.drop off).take 32))) off =
      some (crc8_ref ((b.drop off).take 32)) := by
    rw [← crc8_eq_ref b off (by rw [hwf.length_eq]; omega) (hwf.window_lt _ _)]
    exact crc8_congr (fun k hk => List.getElem?_set_ne (by omega))
  unfold slotValid
  rw [hcrc, load_eq, List.getElem?_set_self (by rw [hwf.length_eq]; omega)]
  exact ⟨rfl, rfl⟩

theorem stagingValid_of_drop_eq {b b2 : List Nat} (hagree : b2.drop 0x30 = b.drop 0x30)
    (hv : stagingValid b) : stagingValid b2 :=
  ⟨slotValid_congr (fun k _ => getElem?_of_drop_eq hagree (by simp only [LINK_REP_C0]; omega))
      hv.1,
    slotValid_congr (fun k _ => getElem?_of_drop_eq hagree (by simp only [LINK_REP_F0]; omega))
      hv.2⟩

theorem dispatch_preserves_staging {b : List Nat} (length : Int) (hwf : WF b)
    (hv : stagingValid b) :
    ∃ r b1, dispatch b length = some (r, b1) ∧ WF b1 ∧ stagingValid b1 := by
  rcases dispatch_buffer_cases length hwf with ⟨r, hr⟩ | ⟨hop, h281⟩
  · exact ⟨r, b, hr, hwf, hv⟩
  · subst h281
    obtain ⟨c, bs, b1, -, hbs, hwfs, hd, hcases⟩ := dispatch_gbwrite_cases hwf hop
    have hvs : stagingValid bs := by
      rw [hbs]
      exact ⟨slotValid_set_outside c (Or.inl (by decide)) hv.1,
        slotValid_set_outside c (Or.inl (by decide)) hv.2⟩
    rcases hcases with ⟨-, h⟩ | ⟨-, h⟩ | ⟨-, h⟩ | ⟨-, -, -, h⟩
    · exact ⟨_, b1, hd, h ▸ WF_zero, h ▸ stagingValid_zero⟩
    · refine ⟨_, b1, hd, ?_, ?_, ?_⟩
      · rw [h]; exact (hwfs.set _ (by decide)).set _ (crc8_ref_lt _)
      · rw [h]; exact slotValid_stamp (hwfs.set 0x30 (by decide)) LINK_REP_C0 (by decide)
      · rw [h]
        exact slotValid_set_outside _ (Or.inl (by decide))
          (slotValid_set_outside _ (Or.inl (by decide)) hvs.2)
    · refine ⟨_, b1, hd, ?_, ?_, ?_⟩
      · rw [h]; exact (hwfs.set _ (by decide)).set _ (crc8_ref_lt _)
      · rw [h]
        exact slotValid_set_outside _ (Or.inr (by decide))
          (slotValid_set_outside _ (Or.inr (by decide)) hvs.1)
      · rw [h]; exact slotValid_stamp (hwfs.set 0x59 (by decide)) LINK_REP_F0 (by decide)
    · exact ⟨_, b1, hd, h ▸ hwfs, h ▸ hvs⟩

theorem reachable_staging {s : List Nat} (hs : Reachable s) : WF s ∧ stagingValid s := by
  induction hs with
  | init => exact ⟨WF_zero, stagingValid_zero⟩
  | step b b2 b3 length r _ hwf2 hagree hd ih =>
    obtain ⟨r1, b1, hd1, hwf1, hv1⟩ :=
      dispatch_preserves_staging length hwf2 (stagingValid_of_drop_eq hagree ih.2)
    rw [hd] at hd1
    obtain ⟨-, rfl⟩ := Prod.mk.inj (Option.some.inj hd1)
    exact ⟨hwf1, hv1⟩

theorem window_checksum_valid {b : List Nat} (hwf : WF b) (off : Nat) (hoff : off + 33 ≤ 128)
    (hv : slotValid b off) :
    ∃ c, crc8 ((b.drop off).take 33) 0 = some c ∧ ((b.drop off).take 33)[32]? = some c := by
  have hcrc := crc8_eq_ref b off (by rw [hwf.length_eq]; omega) (hwf.window_lt _ _)
  refine ⟨crc8_ref ((b.drop off).take 32), ?_, ?_⟩
  · rw [← hcrc]
    exact crc8_congr (fun k hk => by
      rw [Nat.zero_add, getElem?_window _ _ _ (by omega)])
  · rw [getElem?_window _ _ _ (by decide), ← hcrc]
    exact hv.2.symm


/-- C13: one dispatch step preserves the predicate "both staging slots carry a
valid trailing checksum" (`buffer[0x50] = crc8(buffer[0x30..0x4F])` and
`buffer[0x71] = crc8(buffer[0x51..0x70])`) for every opcode, sub-opcode and
length; the all-zero buffer satisfies it; a reception that overwrites only
bytes below offset `0x30` keeps it, so every buffer the loop reaches from the
all-zero buffer satisfies it; and under it every GBREAD reply ends in the
`crc8` of its first 32 bytes. -/
theorem staging_checksums_invariant (b : List Nat) (length : Int) (hwf : WF b)
    (hinv : stagingValid b) :
    (∃ r b1, dispatch b length = some (r, b1) ∧ WF b1 ∧ stagingValid b1) ∧
    stagingValid (List.replicate sizeof_buffer 0) ∧
    (∀ b2, b2.drop 0x30 = b.drop 0x30 → stagingValid b2) ∧
    (∀ s, Reachable s → WF s ∧ stagingValid s) ∧
    (b[0]? = some CMD_GBREAD → b[1]? = some 0xC0 ∨ b[1]? = some 0xF0 →
      ∃ payload c, dispatch b 25 = some ([Reply.mk 264 payload], b) ∧
        payload.length = 33 ∧ crc8 payload 0 = some c ∧ payload[32]? = some c) := by
  refine ⟨dispatch_preserves_staging length hwf hinv, stagingValid_zero,
    fun b2 hagree => stagingValid_of_drop_eq hagree hinv,
    fun s hs => reachable_staging hs, fun hop hsub => ?_⟩
  rcases hsub with hsub | hsub
  · obtain ⟨c, hc1, hc2⟩ := window_checksum_valid hwf LINK_REP_C0 (by decide) hinv.1
    refine ⟨_, c, ?_, length_window (by rw [hwf.length_eq]; decide), hc1, hc2⟩
    rw [dispatch_gbread hop, gbread_C0 hwf hsub]
  · obtain ⟨c, hc1, hc2⟩ := window_checksum_valid hwf LINK_REP_F0 (by decide) hinv.2
    refine ⟨_, c, ?_, length_window (by rw [hwf.length_eq]; decide), hc1, hc2⟩
    rw [dispatch_gbread hop, gbread_F0 hwf hsub]

theorem staging_checksums_invariant_witness :
    WF frameReadF0 ∧ stagingValid frameReadF0 ∧
    (∃ r b1, dispatch frameReadF0 25 = some (r, b1) ∧ WF b1 ∧ stagingValid b1) ∧
    (∃ payload c, dispatch frameReadF0 25 = some ([Reply.mk 264 payload], frameReadF0) ∧
        payload.length = 33 ∧ crc8 payload 0 = some c ∧ payload[32]? = some c) :=
  ⟨by decide, by decide,
    (staging_checksums_invariant frameReadF0 25 (by decide) (by decide)).1,
    (staging_checksums_invariant frameReadF0 25 (by decide) (by decide)).2.2.2.2
      (by decide) (by decide)⟩


/-! ## Error detection of the CRC engine -/

theorem crc8_lut_nodup : crc8_lut.Nodup := by decide

theorem crc8_lut_perm : crc8_lut.Perm (List.range 256) := by decide

theorem crcByteRef_zero_inj {u v : Nat} (hu : u < 256) (hv : v < 256)
    (h : crcByteRef 0 u = crcByteRef 0 v) : u = v := by
  obtain ⟨hu1, hu2⟩ := List.getElem?_eq_some.mp (crc8_lut_lookup hu)
  obtain ⟨hv1, hv2⟩ := List.getElem?_eq_some.mp (crc8_lut_lookup hv)
  exact (crc8_lut_nodup.getElem_inj_iff).mp (by rw [hu2, hv2, h])

theorem crcByteRef_inj_right {c x y : Nat} (hc : c < 256) (hx : x < 256) (hy : y < 256)
    (h : crcByteRef c x = crcByteRef c y) : x = y := by
  rw [← crcByteRef_zero c x, ← crcByteRef_zero c y] at h
  exact Nat.xor_right_inj.mp (crcByteRef_zero_inj (Nat.xor_lt_two_pow (n := 8) hc hx)
    (Nat.xor_lt_two_pow (n := 8) hc hy) h)

theorem crcByteRef_inj_left {c1 c2 z : Nat} (h1 : c1 < 256) (h2 : c2 < 256) (hz : z < 256)
    (h : crcByteRef c1 z = crcByteRef c2 z) : c1 = c2 := by
  rw [← crcByteRef_zero c1 z, ← crcByteRef_zero c2 z] at h
  exact Nat.xor_left_inj.mp (crcByteRef_zero_inj (Nat.xor_lt_two_pow (n := 8) h1 hz)
    (Nat.xor_lt_two_pow (n := 8) h2 hz) h)

theorem foldl_crcByteRef_ne (suf : List Nat) (hsuf : ∀ z ∈ suf, z < 256) :
    ∀ c1 c2, c1 < 256 → c2 < 256 → c1 ≠ c2 →
      suf.foldl crcByteRef c1 ≠ suf.foldl crcByteRef c2 := by
  induction suf with
  | nil => intro c1 c2 _ _ h; simpa using h
  | cons z zs ih =>
    intro c1 c2 h1 h2 hne
    have hz : z < 256 := hsuf z (List.mem_cons_self _ _)
    rw [List.foldl_cons, List.foldl_cons]
    exact ih (fun t ht => hsuf t (List.mem_cons_of_mem _ ht)) _ _ (crcByteRef_lt _ _)
      (crcByteRef_lt _ _) (fun h => hne (crcByteRef_inj_left h1 h2 hz h))

theorem crc8_ref_set_ne (w : List Nat) (k : Nat) (hk : k < w.length)
    (hb : ∀ z ∈ w, z < 256) {x y : Nat} (hx : x < 256) (hy : y < 256) (hxy : x ≠ y) :
    crc8_ref (w.set k x) ≠ crc8_ref (w.set k y) := by
  rw [List.set_eq_take_cons_drop x hk, List.set_eq_take_cons_drop y hk]
  unfold crc8_ref
  rw [List.foldl_append, List.foldl_append, List.foldl_cons, List.foldl_cons]
  have hc : (w.take k).foldl crcByteRef 0 < 256 := foldl_crcByteRef_lt _ 0 (by decide)
  exact foldl_crcByteRef_ne _ (fun z hz => hb z (List.mem_of_mem_drop hz)) _ _
    (crcByteRef_lt _ _) (crcByteRef_lt _ _) (fun h => hxy (crcByteRef_inj_right hc hx hy h))

theorem crc8_whole {w : List Nat} (hlen : w.length = 32) (hb : ∀ z ∈ w, z < 256) :
    crc8 w 0 = some (crc8_ref w) := by
  have h := crc8_eq_ref w 0 (by omega)
    (fun z hz => hb z (List.mem_of_mem_drop (List.mem_of_mem_take hz)))
  rwa [List.drop_zero, List.take_of_length_le (by omega)] at h

theorem set_bytes {w : List Nat} (hb : ∀ z ∈ w, z < 256) (k : Nat) {y : Nat} (hy : y < 256) :
    ∀ z ∈ w.set k y, z < 256 := by
  intro z hz
  rcases List.mem_or_eq_of_mem_set hz with h | h
  · exact hb z h
  · exact h ▸ hy

theorem crc8_set_surjective (w : List Nat) (k : Nat) (hlen : w.length = 32)
    (hk : k < 32) (hb : ∀ z ∈ w, z < 256) (c : Nat) (hc : c < 256) :
    ∃ y, y < 256 ∧ crc8 (w.set k y) 0 = some c := by
  have hinj : Function.Injective
      (fun y : Fin 256 => (⟨crc8_ref (w.set k y.val), crc8_ref_lt _⟩ : Fin 256)) := by
    intro y1 y2 h
    by_contra hne
    exact crc8_ref_set_ne w k (by omega) hb y1.isLt y2.isLt
      (fun e => hne (Fin.ext e)) (congrArg Fin.val h)
  obtain ⟨y, hy⟩ := Finite.injective_iff_surjective.mp hinj ⟨c, hc⟩
  refine ⟨y.val, y.isLt, ?_⟩
  rw [crc8_whole (by rw [List.length_set]; exact hlen) (set_bytes hb k y.isLt)]
  exact congrArg some (congrArg Fin.val hy)


theorem set_getElem?_self {w : List Nat} {k x : Nat} (h : w[k]? = some x) : w.set k x = w := by
  obtain ⟨hk, -⟩ := List.getElem?_eq_some.mp h
  apply List.ext_getElem?
  intro j
  rw [List.getElem?_set]
  by_cases hj : k = j
  · subst hj; simp [hk, h]
  · simp [hj]

theorem xor_ne_self {x p : Nat} (hp : p ≠ 0) : x ≠ x ^^^ p :=
  fun e => hp (Nat.xor_right_inj.mp ((Nat.xor_zero x).trans e)).symm

/-- C17: two 32-byte inputs that differ in exactly one byte position get
different checksums from `crc8`; `crc8_lut` is a permutation of `0..255`; with
the other 31 bytes fixed, every checksum value is reached by some value of
the byte at position `k`; and flipping any single bit of that byte changes
the checksum. -/
theorem crc8_single_byte_injective (w1 w2 : List Nat) (k : Nat)
    (hlen1 : w1.length = 32) (hlen2 : w2.length = 32)
    (hb1 : ∀ x ∈ w1, x < 256) (hb2 : ∀ x ∈ w2, x < 256)
    (hk : w1[k]? ≠ w2[k]?) (hsame : ∀ j, j ≠ k → w1[j]? = w2[j]?) :
    (∃ c1 c2, crc8 w1 0 = some c1 ∧ crc8 w2 0 = some c2 ∧ c1 ≠ c2) ∧
    crc8_lut.Perm (List.range 256) ∧
    (∀ c, c < 256 → ∃ y, y < 256 ∧ crc8 (w1.set k y) 0 = some c) ∧
    (∀ j, j < 8 → ∃ x c1 c3, w1[k]? = some x ∧ crc8 w1 0 = some c1 ∧
      crc8 (w1.set k (x ^^^ 2 ^ j)) 0 = some c3 ∧ c1 ≠ c3) := by
  have hk32 : k < 32 := by
    by_contra hge
    exact hk (by
      rw [List.getElem?_eq_none (by omega), List.getElem?_eq_none (by omega)])
  have hx : w1[k]? = some (w1[k]) := List.getElem?_eq_getElem (by omega)
  have hy : w2[k]? = some (w2[k]) := List.getElem?_eq_getElem (by omega)
  have hxb : w1[k] < 256 := hb1 _ (List.getElem_mem _)
  have hyb : w2[k] < 256 := hb2 _ (List.getElem_mem _)
  have hxy : w1[k] ≠ w2[k] := fun e => hk (by rw [hx, hy, e])
  have e1 : w1.set k w1[k] = w1 := set_getElem?_self hx
  have e2 : w1.set k w2[k] = w2 := by
    apply List.ext_getElem?
    intro j
    by_cases hj : k = j
    · subst hj
      rw [List.getElem?_set_self (by omega), hy]
    · rw [List.getElem?_set_ne hj]
      exact hsame j (Ne.symm hj)
  refine ⟨⟨crc8_ref w1, crc8_ref w2, crc8_whole hlen1 hb1, crc8_whole hlen2 hb2, ?_⟩,
    crc8_lut_perm, fun c hc => crc8_set_surjective w1 k hlen1 hk32 hb1 c hc,
    fun j hj => ?_⟩
  · have h := crc8_ref_set_ne w1 k (by omega) hb1 hxb hyb hxy
    rwa [e1, e2] at h
  · have hpow : 2 ^ j < 2 ^ 8 := Nat.pow_lt_pow_right (by decide) hj
    have hfb : w1[k] ^^^ 2 ^ j < 256 := Nat.xor_lt_two_pow (n := 8) hxb hpow
    have hne : w1[k] ≠ w1[k] ^^^ 2 ^ j :=
      xor_ne_self (Nat.two_pow_pos j).ne'
    refine ⟨w1[k], crc8_ref w1, crc8_ref (w1.set k (w1[k] ^^^ 2 ^ j)), hx,
      crc8_whole hlen1 hb1,
      crc8_whole (by rw [List.length_set]; exact hlen1) (set_bytes hb1 k hfb), ?_⟩
    have h := crc8_ref_set_ne w1 k (by omega) hb1 hxb hfb hne
    rwa [e1] at h

theorem crc8_single_byte_injective_witness :
    (List.range 32).length = 32 ∧ ((List.range 32).set 5 200).length = 32 ∧
    (∀ x ∈ List.range 32, x < 256) ∧ (∀ x ∈ (List.range 32).set 5 200, x < 256) ∧
    (List.range 32)[5]? ≠ ((List.range 32).set 5 200)[5]? ∧
    (∀ j, j ≠ 5 → (List.range 32)[j]? = ((List.range 32).set 5 200)[j]?) ∧
    ∃ c1 c2, crc8 (List.range 32) 0 = some c1 ∧
      crc8 ((List.range 32).set 5 200) 0 = some c2 ∧ c1 ≠ c2 :=
  ⟨by decide, by decide, by decide, by decide, by decide,
    fun j hj => (List.getElem?_set_ne (Ne.symm hj)).symm,
    (crc8_single_byte_injective (List.range 32) ((List.range 32).set 5 200) 5
      (by decide) (by decide) (by decide) (by decide) (by decide)
      (fun j hj => (List.getElem?_set_ne (Ne.symm hj)).symm)).1⟩


/-! ## Retransmission -/

theorem window_congr {m1 m2 : List Nat} {p n : Nat}
    (h : ∀ k, k < n → m1[p + k]? = m2[p + k]?) :
    (m1.drop p).take n = (m2.drop p).take n := by
  apply List.ext_getElem?
  intro k
  by_cases hk : k < n
  · rw [getElem?_window _ _ _ hk, getElem?_window _ _ _ hk]; exact h k hk
  · rw [List.getElem?_take, List.getElem?_take, if_neg hk, if_neg hk]

theorem retransmit_getElem? (b b1 : List Nat) (hlen : b.length = 128) (j : Nat) :
    (b.take 35 ++ b1.drop 35)[j]? = if j < 35 then b[j]? else b1[j]? := by
  have hl : (b.take 35).length = 35 := by rw [List.length_take, hlen]; rfl
  by_cases hj : j < 35
  · rw [if_pos hj, List.getElem?_append_left (by rw [hl]; exact hj),
      List.getElem?_take_of_lt hj]
  · rw [if_neg hj, List.getElem?_append_right (by rw [hl]; omega), hl, List.getElem?_drop]
    congr 1
    omega

theorem retransmit_eq_self {b b1 : List Nat} (hlen : b.length = 128)
    (h : ∀ j, j < 35 → b1[j]? = b[j]?) : b.take 35 ++ b1.drop 35 = b1 := by
  apply List.ext_getElem?
  intro j
  rw [retransmit_getElem? b b1 hlen j]
  by_cases hj : j < 35
  · rw [if_pos hj]; exact (h j hj).symm
  · rw [if_neg hj]

theorem dispatch_gbwrite_result {b : List Nat} (hwf : WF b) (hop : b[0]? = some CMD_GBWRITE) :
    dispatch b 281 =
      (gbwriteStage (b.set 0x23 (crc8_ref ((b.drop 3).take 32)))).map
        fun b2 => ([Reply.mk 8 [crc8_ref ((b.drop 3).take 32)]], b2) := by
  rw [dispatch_gbwrite hop, gbwrite_eq hwf]
  rfl

theorem WF_retransmit {b b1 : List Nat} (hwf : WF b) (hwf1 : WF b1) :
    WF (b.take 35 ++ b1.drop 35) := by
  refine ⟨?_, fun x hx => ?_⟩
  · rw [List.length_append, List.length_take, List.length_drop, hwf.length_eq, hwf1.length_eq]
    rfl
  · rcases List.mem_append.mp hx with h | h
    · exact hwf.2 x (List.mem_of_mem_take h)
    · exact hwf1.2 x (List.mem_of_mem_drop h)

theorem retransmit_low (b b1 : List Nat) (hlen : b.length = 128) {j : Nat} (hj : j < 35) :
    (b.take 35 ++ b1.drop 35)[j]? = b[j]? := by
  rw [retransmit_getElem? b b1 hlen j, if_pos hj]

theorem retransmit_window (b b1 : List Nat) (hlen : b.length = 128) :
    ((b.take 35 ++ b1.drop 35).drop 3).take 32 = (b.drop 3).take 32 :=
  window_congr (fun k hk => retransmit_low b b1 hlen (by omega))

theorem retransmit_init {b : List Nat} (hwf : WF b) (hop : b[0]? = some CMD_GBWRITE)
    (hsub : b[1]? = some 0x80) :
    dispatch (b.take 35 ++ (List.replicate sizeof_buffer 0).drop 35) 281 =
      some ([Reply.mk 8 [crc8_ref ((b.drop 3).take 32)]], List.replicate sizeof_buffer 0) := by
  have hwf2 := WF_retransmit hwf WF_zero
  have hop2 := (retransmit_low b (List.replicate sizeof_buffer 0) hwf.length_eq
    (show 0 < 35 by decide)).trans hop
  have hsub2 := (retransmit_low b (List.replicate sizeof_buffer 0) hwf.length_eq
    (show 1 < 35 by decide)).trans hsub
  rw [dispatch_gbwrite_result hwf2 hop2, retransmit_window b _ hwf.length_eq,
    gbwriteStage_init (hwf2.set _ (crc8_ref_lt _))
      (by rw [List.getElem?_set_ne (by decide)]; exact hsub2)]
  rfl

theorem dispatch_gbwrite_fixed {b1 : List Nat} {c : Nat} (hwf1 : WF b1)
    (hop1 : b1[0]? = some CMD_GBWRITE) (hc : crc8_ref ((b1.drop 3).take 32) = c)
    (h23 : b1[0x23]? = some c) (hstage : gbwriteStage b1 = some b1) :
    dispatch b1 281 = some ([Reply.mk 8 [c]], b1) := by
  rw [dispatch_gbwrite_result hwf1 hop1, hc, set_getElem?_self h23, hstage]
  rfl

theorem gbwriteStage_conf_fixed {b1 : List Nat} {c : Nat} (hwf1 : WF b1)
    (hsub1 : b1[1]? = some 0xC0) (h30 : b1[0x30]? = some 0x02)
    (hc : crc8_ref ((b1.drop 0x30).take 32) = c) (h50 : b1[0x50]? = some c) :
    gbwriteStage b1 = some b1 := by
  have e := gbwriteStage_conf hwf1 hsub1
  change gbwriteStage b1 = some ((b1.set 0x30 0x02).set 0x50
    (crc8_ref (((b1.set 0x30 0x02).drop 0x30).take 32))) at e
  rw [e, set_getElem?_self h30, hc, set_getElem?_self h50]

theorem gbwriteStage_send_fixed {b1 : List Nat} {c : Nat} (hwf1 : WF b1)
    (hsub1 : b1[1]? = some 0xE0) (h59 : b1[0x59]? = some 0x81)
    (hc : crc8_ref ((b1.drop 0x51).take 32) = c) (h71 : b1[0x71]? = some c) :
    gbwriteStage b1 = some b1 := by
  have e := gbwriteStage_send hwf1 hsub1
  change gbwriteStage b1 = some ((b1.set 0x59 0x81).set 0x71
    (crc8_ref (((b1.set 0x59 0x81).drop 0x51).take 32))) at e
  rw [e, set_getElem?_self h59, hc, set_getElem?_self h71]

theorem dispatch_gbwrite_idem {b : List Nat} (hwf : WF b)
    (hop : b[0]? = some CMD_GBWRITE) (hsub : b[1]? ≠ some 0x80) :
    ∃ r b1, dispatch b 281 = some (r, b1) ∧ (∀ j, j < 35 → b1[j]? = b[j]?) ∧
      dispatch b1 281 = some (r, b1) := by
  obtain ⟨c, bs, b1, hc, hbs, hwfs, hd, hcases⟩ := dispatch_gbwrite_cases hwf hop
  have hlen := hwf.length_eq
  have hlens := hwfs.length_eq
  have hc23 : bs[0x23]? = some c := by
    rw [hbs]; exact List.getElem?_set_self (by rw [hlen]; decide)
  have hlows : ∀ j, j < 35 → bs[j]? = b[j]? := fun j hj => by
    rw [hbs]; exact List.getElem?_set_ne (by omega)
  have hwin : ∀ m : List Nat, (∀ j, j < 35 → m[j]? = b[j]?) →
      crc8_ref ((m.drop 3).take 32) = c := fun m hm => by
    rw [hc]
    exact congrArg crc8_ref (window_congr (fun k hk => hm (3 + k) (by omega)))
  refine ⟨_, b1, hd, ?_⟩
  rcases hcases with ⟨h, -⟩ | ⟨h, hb1⟩ | ⟨h, hb1⟩ | ⟨h80, hC0, hE0, hb1⟩
  · exact absurd h hsub
  · have hwfX : WF (bs.set 0x30 0x02) := hwfs.set _ (by decide)
    have hwf1 : WF b1 := hb1 ▸ hwfX.set _ (crc8_ref_lt _)
    have hlow : ∀ j, j < 35 → b1[j]? = b[j]? := fun j hj => by
      rw [hb1, List.getElem?_set_ne (by omega), List.getElem?_set_ne (by omega)]
      exact hlows j hj
    refine ⟨hlow, dispatch_gbwrite_fixed hwf1 ((hlow 0 (by decide)).trans hop)
      (hwin b1 hlow) ?_
      (gbwriteStage_conf_fixed hwf1 ((hlow 1 (by decide)).trans h) ?_ rfl ?_)⟩
    · rw [hb1, List.getElem?_set_ne (by decide), List.getElem?_set_ne (by decide)]
      exact hc23
    · rw [hb1, List.getElem?_set_ne (by decide)]
      exact List.getElem?_set_self (by rw [hlens]; decide)
    · have hw : (b1.drop 0x30).take 32 = ((bs.set 0x30 0x02).drop 0x30).take 32 :=
        window_congr (fun k hk => by rw [hb1]; exact List.getElem?_set_ne (by omega))
      rw [hw]
      conv_lhs => rw [hb1]
      exact List.getElem?_set_self (by rw [hwfX.length_eq]; decide)
  · have hwfX : WF (bs.set 0x59 0x81) := hwfs.set _ (by decide)
    have hwf1 : WF b1 := hb1 ▸ hwfX.set _ (crc8_ref_lt _)
    have hlow : ∀ j, j < 35 → b1[j]? = b[j]? := fun j hj => by
      rw [hb1, List.getElem?_set_ne (by omega), List.getElem?_set_ne (by omega)]
      exact hlows j hj
    refine ⟨hlow, dispatch_gbwrite_fixed hwf1 ((hlow 0 (by decide)).trans hop)
      (hwin b1 hlow) ?_
      (gbwriteStage_send_fixed hwf1 ((hlow 1 (by decide)).trans h) ?_ rfl ?_)⟩
    · rw [hb1, List.getElem?_set_ne (by decide), List.getElem?_set_ne (by decide)]
      exact hc23
    · rw [hb1, List.getElem?_set_ne (by decide)]
      exact List.getElem?_set_self (by rw [hlens]; decide)
    · have hw : (b1.drop 0x51).take 32 = ((bs.set 0x59 0x81).drop 0x51).take 32 :=
        window_congr (fun k hk => by rw [hb1]; exact List.getElem?_set_ne (by omega))
      rw [hw]
      conv_lhs => rw [hb1]
      exact List.getElem?_set_self (by rw [hwfX.length_eq]; decide)
  · have hlow : ∀ j, j < 35 → b1[j]? = b[j]? := fun j hj => by rw [hb1]; exact hlows j hj
    have hsub1 : b1[1]? = some b[1]! := (hlow 1 (by decide)).trans (getElem?_one_of_WF hwf)
    have hne : ∀ v : Nat, b[1]? ≠ some v → b[1]! ≠ v :=
      fun v h e => h (by rw [getElem?_one_of_WF hwf, e])
    exact ⟨hlow, dispatch_gbwrite_fixed (hb1 ▸ hwfs) ((hlow 0 (by decide)).trans hop)
      (hwin b1 hlow) (hb1 ▸ hc23)
      (gbwriteStage_other hsub1 (hne _ h80) (hne _ hC0) (hne _ hE0))⟩


/-- C18: a retransmitted GBWRITE is idempotent: for every well-formed buffer
`b` whose byte 0 is `CMD_GBWRITE`, whatever the sub-opcode, if `(r1, b1)` is
the result of dispatching `b` with length 281 and the same 35-byte frame is
received again over `b1` (bytes 0..34 of `b`, then bytes 35..127 of `b1`),
dispatching that buffer with length 281 gives the same reply `r1` and the
same final buffer `b1`. -/
theorem gbwrite_retransmit_idempotent (b : List Nat) (hwf : WF b)
    (hop : b[0]? = some CMD_GBWRITE) :
    ∃ r1 b1, dispatch b 281 = some (r1, b1) ∧
      dispatch (b.take 35 ++ b1.drop 35) 281 = some (r1, b1) := by
  by_cases hsub : b[1]? = some 0x80
  · obtain ⟨c, bs, b1, hc, -, -, hd, hcases⟩ := dispatch_gbwrite_cases hwf hop
    have hb1 : b1 = List.replicate sizeof_buffer 0 := by
      rcases hcases with ⟨-, h⟩ | ⟨h, -⟩ | ⟨h, -⟩ | ⟨h, -⟩
      · exact h
      · rw [hsub] at h; exact absurd h (by decide)
      · rw [hsub] at h; exact absurd h (by decide)
      · exact absurd hsub h
    refine ⟨_, b1, hd, ?_⟩
    rw [hb1, retransmit_init hwf hop hsub, hc]
    rfl
  · obtain ⟨r, b1, hd, hlow, hidem⟩ := dispatch_gbwrite_idem hwf hop hsub
    refine ⟨r, b1, hd, ?_⟩
    rw [retransmit_eq_self hwf.length_eq hlow]
    exact hidem

theorem gbwrite_retransmit_idempotent_witness :
    WF frameWriteInit ∧ frameWriteInit[0]? = some CMD_GBWRITE ∧
    ∃ r1 b1, dispatch frameWriteInit 281 = some (r1, b1) ∧
      dispatch (frameWriteInit.take 35 ++ b1.drop 35) 281 = some (r1, b1) :=
  ⟨by decide, by decide, gbwrite_retransmit_idempotent frameWriteInit (by decide) (by decide)⟩

end GbaLink
